import Mathlib

/-!
Verification of the stexls core (intermediate tree builder, compiler, linker)
against its natural-language specification.

The Python sources under stexls/stex (compiler.py, linker.py, parser.py,
symbols.py) are embedded shallowly below: every definition mirrors the
corresponding Python function or class; machine-level details that cannot
matter for the verified properties (uuid strings, wall-clock times, the
filesystem) are made explicit parameters or state.  Helpers that live in
modules not present in this source snapshot (stexls/util/roman_numerals.py,
stexls/stex/util.py, stexls/stex/reference_type.py) are modelled from the
specification and carry a doc comment saying so.
-/

namespace Stexls

/-- A source position, zero-based line and character (vscode.Position). -/
structure Pos where
  line : Nat
  character : Nat
deriving DecidableEq, Repr

/-- A source range (vscode.Range): start and end positions. -/
structure Range where
  start : Pos
  stop : Pos
deriving DecidableEq, Repr

/-- File paths are modelled as their list of components relative to an
abstract filesystem root; pathlib's slash appends a component. -/
def Path := List String
deriving DecidableEq, Repr

/-- Append one component to a path (pathlib's / operator). -/
def Path.child (p : Path) (s : String) : Path := List.append p [s]

/-- A token of source text with the range it was parsed from
(parser.py TokenWithLocation). -/
structure Token where
  text : String
  range : Range
deriving DecidableEq, Repr

/-- symbols.py AccessModifier: a Flag with PUBLIC = 0, PROTECTED = 1,
PRIVATE = 3 (so that PRIVATE absorbs PROTECTED under bitwise or). -/
inductive AccessModifier where
  | PUBLIC
  | PROTECTED
  | PRIVATE
deriving DecidableEq, Repr

/-- The numeric Flag value of an access modifier (symbols.py lines 27-30). -/
def AccessModifier.val : AccessModifier → Nat
  | .PUBLIC => 0
  | .PROTECTED => 1
  | .PRIVATE => 3

/-- Bitwise or of two access modifiers, as Python evaluates a | b on the
Flag values 0, 1, 3.  Total on the three members because the value set
is closed under or. -/
def AccessModifier.flagOr : AccessModifier → AccessModifier → AccessModifier
  | .PUBLIC, b => b
  | a, .PUBLIC => a
  | .PRIVATE, _ => .PRIVATE
  | _, .PRIVATE => .PRIVATE
  | .PROTECTED, .PROTECTED => .PROTECTED

/-- Bitwise and of two access modifiers on the Flag values 0, 1, 3. -/
def AccessModifier.flagAnd : AccessModifier → AccessModifier → AccessModifier
  | .PUBLIC, _ => .PUBLIC
  | _, .PUBLIC => .PUBLIC
  | .PRIVATE, b => b
  | a, .PRIVATE => a
  | .PROTECTED, .PROTECTED => .PROTECTED

/-- symbols.py ModuleType. -/
inductive ModuleType where
  | MODSIG
  | MODULE
deriving DecidableEq, Repr

/-- symbols.py DefType. -/
inductive DefType where
  | DEF
  | DREF
  | SYMDEF
  | SYM
deriving DecidableEq, Repr

/-- Modelled from the spec: stexls/stex/reference_type.py is not part of this
source snapshot.  Per the data model, ReferenceType is a bitflag drawn from
MODSIG, MODULE, DEF, DREF, SYM, SYMDEF, BINDING (with ANY_DEFINITION the
union of the four definition flags); symbols.py additionally uses an
UNDEFINED member for symbols no reference can address.  Each field is one
flag bit. -/
structure ReferenceType where
  modsig : Bool := false
  module : Bool := false
  defFlag : Bool := false
  dref : Bool := false
  sym : Bool := false
  symdef : Bool := false
  binding : Bool := false
  undefined : Bool := false
deriving DecidableEq, Repr

def ReferenceType.MODSIG : ReferenceType := { modsig := true }
def ReferenceType.MODULE : ReferenceType := { module := true }
def ReferenceType.DEF : ReferenceType := { defFlag := true }
def ReferenceType.DREF : ReferenceType := { dref := true }
def ReferenceType.SYM : ReferenceType := { sym := true }
def ReferenceType.SYMDEF : ReferenceType := { symdef := true }
def ReferenceType.BINDING : ReferenceType := { binding := true }
def ReferenceType.UNDEFINED : ReferenceType := { undefined := true }
def ReferenceType.ANY_DEFINITION : ReferenceType :=
  { defFlag := true, dref := true, sym := true, symdef := true }

/-- Flag union (Python a | b). -/
def ReferenceType.union (a b : ReferenceType) : ReferenceType :=
  { modsig := a.modsig || b.modsig
    module := a.module || b.module
    defFlag := a.defFlag || b.defFlag
    dref := a.dref || b.dref
    sym := a.sym || b.sym
    symdef := a.symdef || b.symdef
    binding := a.binding || b.binding
    undefined := a.undefined || b.undefined }

/-- Flag containment (Python a in b: every bit of a is set in b). -/
def ReferenceType.memOf (a b : ReferenceType) : Bool :=
  (!a.modsig || b.modsig) && (!a.module || b.module) &&
  (!a.defFlag || b.defFlag) && (!a.dref || b.dref) &&
  (!a.sym || b.sym) && (!a.symdef || b.symdef) &&
  (!a.binding || b.binding) && (!a.undefined || b.undefined)

/-- The variant-specific data of a symbol table node: symbols.py has one
subclass of Symbol per variant (RootSymbol, ModuleSymbol, BindingSymbol,
DefSymbol, ScopeSymbol); the tag of this sum is the Python class. -/
inductive SymKind where
  | root
  | module (module_type : ModuleType)
  | binding (lang : Token)
  | defi (def_type : DefType) (noverb : Bool) (noverbs : List String)
  | scope
deriving DecidableEq, Repr

/-- The per-node fields shared by every symbols.py Symbol: name, location
(path plus range) and access modifier, plus the variant data. -/
structure SymData where
  name : String
  kind : SymKind
  access_modifier : AccessModifier
  locPath : Path
  locRange : Range
deriving DecidableEq, Repr

/-- One symbol table node together with its children, kept exactly as
symbols.py keeps them: a name-keyed dictionary (insertion-ordered list of
buckets) of insertion-ordered lists of same-named symbols. -/
inductive Sym where
  | node (data : SymData) (children : List (String × List Sym))

def Sym.data : Sym → SymData
  | .node d _ => d

def Sym.children : Sym → List (String × List Sym)
  | .node _ cs => cs

def Sym.name (s : Sym) : String := s.data.name

def Sym.access_modifier (s : Sym) : AccessModifier := s.data.access_modifier

mutual
def Sym.beq : Sym → Sym → Bool
  | .node d cs, .node d' cs' => d = d' && Sym.beqBuckets cs cs'

def Sym.beqBuckets : List (String × List Sym) → List (String × List Sym) → Bool
  | [], [] => true
  | (n, b) :: cs, (n', b') :: cs' => n = n' && Sym.beqList b b' && Sym.beqBuckets cs cs'
  | _, _ => false

def Sym.beqList : List Sym → List Sym → Bool
  | [], [] => true
  | c :: cs, c' :: cs' => Sym.beq c c' && Sym.beqList cs cs'
  | _, _ => false
end

mutual
def Sym.beq_iff : ∀ (a b : Sym), Sym.beq a b = true ↔ a = b
  | .node d cs, .node d' cs' => by
      simp only [Sym.beq, Bool.and_eq_true, decide_eq_true_eq, Sym.node.injEq]
      exact and_congr Iff.rfl (Sym.beqBuckets_iff cs cs')

def Sym.beqBuckets_iff :
    ∀ (l l' : List (String × List Sym)), Sym.beqBuckets l l' = true ↔ l = l'
  | [], [] => by simp [Sym.beqBuckets]
  | [], _ :: _ => by simp [Sym.beqBuckets]
  | _ :: _, [] => by simp [Sym.beqBuckets]
  | (n, b) :: cs, (n', b') :: cs' => by
      simp only [Sym.beqBuckets, Bool.and_eq_true, List.cons.injEq, Prod.mk.injEq,
        decide_eq_true_eq, and_assoc]
      exact and_congr Iff.rfl
        (and_congr (Sym.beqList_iff b b') (Sym.beqBuckets_iff cs cs'))

def Sym.beqList_iff : ∀ (l l' : List Sym), Sym.beqList l l' = true ↔ l = l'
  | [], [] => by simp [Sym.beqList]
  | [], _ :: _ => by simp [Sym.beqList]
  | _ :: _, [] => by simp [Sym.beqList]
  | c :: cs, c' :: cs' => by
      simp only [Sym.beqList, Bool.and_eq_true, List.cons.injEq]
      exact and_congr (Sym.beq_iff c c') (Sym.beqList_iff cs cs')
end

instance : DecidableEq Sym := fun a b =>
  decidable_of_iff (Sym.beq a b = true) (Sym.beq_iff a b)

/-- Read a name's bucket from a children dictionary
(Python self.children.get(name, [])). -/
def bucketOf (cs : List (String × List Sym)) (n : String) : List Sym :=
  match cs.find? (fun bucket => bucket.1 = n) with
  | some bucket => bucket.2
  | none => []

/-- Append a symbol to its name's bucket, creating the bucket at the end of
the dictionary when absent (Python
self.children.setdefault(child.name, []).append(child)). -/
def bucketAppend (cs : List (String × List Sym)) (child : Sym) :
    List (String × List Sym) :=
  if (cs.find? (fun bucket => bucket.1 = child.name)).isSome then
    cs.map (fun bucket =>
      if bucket.1 = child.name then (bucket.1, List.append bucket.2 [child]) else bucket)
  else List.append cs [(child.name, [child])]

/-- The children bucket with a given name, in insertion order
(Python self.children.get(name, [])). -/
def Sym.childrenNamed (s : Sym) (n : String) : List Sym :=
  bucketOf s.children n

/-- symbols.py Symbol.reference_type (and its overrides in ModuleSymbol,
DefSymbol, BindingSymbol): the flag a reference addressing this symbol
must carry.  RootSymbol and ScopeSymbol inherit the base UNDEFINED. -/
def SymData.reference_type (d : SymData) : ReferenceType :=
  match d.kind with
  | .root => ReferenceType.UNDEFINED
  | .scope => ReferenceType.UNDEFINED
  | .module .MODSIG => ReferenceType.MODSIG
  | .module .MODULE => ReferenceType.MODULE
  | .binding _ => ReferenceType.BINDING
  | .defi .DEF _ _ => ReferenceType.DEF
  | .defi .DREF _ _ => ReferenceType.DREF
  | .defi .SYM _ _ => ReferenceType.SYM
  | .defi .SYMDEF _ _ => ReferenceType.SYMDEF

def Sym.reference_type (s : Sym) : ReferenceType := s.data.reference_type

/-- The Python class of a symbol (used by isinstance checks in add_child). -/
inductive SymClass where
  | rootClass
  | moduleClass
  | bindingClass
  | defClass
  | scopeClass
deriving DecidableEq, Repr

def SymKind.pyClass : SymKind → SymClass
  | .root => .rootClass
  | .module _ => .moduleClass
  | .binding _ => .bindingClass
  | .defi _ _ _ => .defClass
  | .scope => .scopeClass

mutual
/-- symbols.py Symbol.find: downward-only search of an identifier among the
sub-trees of this symbol's children.  An empty identifier returns the symbol
itself; a one-element identifier returns the bucket of matching children; a
longer one recurses with find into each child of the matching bucket (the
Python list comprehension over children.get(identifier[0], [])). -/
def Sym.find : Sym → List String → List Sym
  | s, [] => [s]
  | .node _ buckets, n :: rest =>
    match rest with
    | [] => bucketOf buckets n
    | _ => Sym.findInBuckets buckets n rest

def Sym.findInBuckets : List (String × List Sym) → String → List String → List Sym
  | [], _, _ => []
  | (m, b) :: bs, n, rest =>
    if m = n then Sym.findList b rest else Sym.findInBuckets bs n rest

def Sym.findList : List Sym → List String → List Sym
  | [], _ => []
  | c :: cs, rest => List.append (Sym.find c rest) (Sym.findList cs rest)
end

/-- The exceptions add_child can raise (exceptions.py
DuplicateSymbolDefinedError and InvalidSymbolRedifinitionException). -/
inductive AddChildErr where
  | duplicateSymbolDefined (name : String)
  | invalidSymbolRedifinition (name : String)
deriving DecidableEq, Repr

/-- The check add_child performs against one previous child of the same
name (symbols.py lines 215-239 loop body): returns some exception if that
previous child makes the insertion fail, none if the loop continues. -/
def add_child_check (child prev : SymData) (alternative : Bool) : Option AddChildErr :=
  if child.reference_type ≠ prev.reference_type then
    none
  else if !alternative then
    some (.duplicateSymbolDefined child.name)
  else if child.kind.pyClass ≠ prev.kind.pyClass then
    some (.invalidSymbolRedifinition child.name)
  else
    match child.kind, prev.kind with
    | .defi dt nv nvs, .defi dt' nv' nvs' =>
      if dt ≠ dt' then some (.invalidSymbolRedifinition child.name)
      else if nv ≠ nv' then some (.invalidSymbolRedifinition child.name)
      else if nvs ≠ nvs' then some (.invalidSymbolRedifinition child.name)
      else none
    | _, _ => none

/-- symbols.py Symbol.add_child on the parent's children list: scan the
previous children carrying the child's name in insertion order and raise at
the first offending one, otherwise append the child to its name's bucket. -/
def add_child (children : List (String × List Sym)) (child : Sym) (alternative : Bool) :
    Except AddChildErr (List (String × List Sym)) :=
  match (bucketOf children child.name).findSome?
      (fun prev => add_child_check child.data prev.data alternative) with
  | some e => .error e
  | none => .ok (bucketAppend children child)

/-- symbols.py Symbol.get_visible_access_modifier, expressed on the chain of
access modifiers from the symbol (head) up to the root (last): if the symbol
has a parent and its own modifier is not PRIVATE, the result is the parent's
visible modifier or-ed with its own; otherwise its own modifier. -/
def get_visible_access_modifier (a : AccessModifier) (ups : List AccessModifier) :
    AccessModifier :=
  match ups with
  | [] => a
  | p :: rest =>
    if a = .PRIVATE then a
    else AccessModifier.flagOr (get_visible_access_modifier p rest) a

/-- A cursor into a symbol table: the symbol under focus together with its
chain of ancestors, nearest first (the Python objects carry parent
pointers; a cursor is how a shallow embedding reads them). -/
structure Cursor where
  ups : List Sym
  sym : Sym
deriving DecidableEq

/-- Is this symbol a ModuleSymbol or a BindingSymbol (the isinstance check
that stops upward lookup in symbols.py line 272)? -/
def Sym.isModuleOrBinding (s : Sym) : Bool :=
  match s.data.kind with
  | .module _ => true
  | .binding _ => true
  | _ => false

/-- symbols.py Symbol.lookup on a cursor: resolve the identifier head among
this symbol's children and the tail by find in each match, filtered by the
accepted reference type; on no match recurse into the parent unless the
current symbol is a Module or Binding; as a last resort, if the current
symbol's own name equals the head, return find on the tail.  An empty
identifier is never passed by the sources (it would raise IndexError). -/
def Sym.lookupAux (s : Sym) (ups : List Sym) (identifier : List String)
    (accepted : Option ReferenceType) : List Sym :=
  match identifier with
  | [] => []
  | n :: rest =>
    let resolved := (List.flatten ((s.childrenNamed n).map (fun c => c.find rest))).filter
      (fun sy => match accepted with
        | none => true
        | some rt => sy.reference_type.memOf rt)
    if resolved.isEmpty then
      match ups with
      | p :: rest' =>
        if s.isModuleOrBinding then
          (if s.name = n then s.find rest else [])
        else Sym.lookupAux p rest' identifier accepted
      | [] => (if s.name = n then s.find rest else [])
    else resolved

def Cursor.lookup (cur : Cursor) (identifier : List String)
    (accepted : Option ReferenceType := none) : List Sym :=
  Sym.lookupAux cur.sym cur.ups identifier accepted

/-- A shallow copy of a symbol: its parameterization without its children.
import_from applies shallow_copy only to ModuleSymbols and DefSymbols, whose
shallow_copy methods copy name, location, access modifier and variant
fields verbatim (symbols.py lines 339-342, 389-396).  ScopeSymbol's
shallow_copy would decorate the name again, but no code path verified here
shallow-copies a scope. -/
def Sym.shallow_copy (s : Sym) : Sym := Sym.node s.data []

/-- Replace the symbol at index idx of bucket bname by f of it (how the
embedding expresses Python's in-place mutation of the child copy held
inside the importing scope). -/
def updateBucketAt (cs : List (String × List Sym)) (bname : String) (idx : Nat)
    (f : Sym → Sym) : List (String × List Sym) :=
  cs.map (fun bucket =>
    if bucket.1 = bname then
      (bucket.1, bucket.2.mapIdx (fun j c => if j = idx then f c else c))
    else bucket)

mutual
/-- symbols.py Symbol.import_from: append a shallow copy of the module to
this scope's children (an exception here propagates to the caller, so it is
returned as the second component and leaves the scope unchanged), then walk
the module's children bucket by bucket: non-PUBLIC children are skipped,
child modules are imported recursively into the same scope, and DefSymbol
children are shallow-copied into the module copy - allowing alternatives
exactly when the bucket held more than one symbol - with redefinition and
duplicate faults swallowed. -/
def import_from : Sym → Sym → Sym × Option AddChildErr
  | self, .node d buckets =>
    match add_child self.children (Sym.node d []) false with
    | .error e => (self, some e)
    | .ok cs' =>
      let cpyIdx := (bucketOf cs' d.name).length - 1
      (importBuckets (Sym.node self.data cs') d.name cpyIdx buckets, none)

def importBuckets : Sym → String → Nat → List (String × List Sym) → Sym
  | self, _, _, [] => self
  | self, cpyName, cpyIdx, (_, b) :: bs =>
    importBuckets (importAlts self cpyName cpyIdx (b.length > 1) b) cpyName cpyIdx bs

def importAlts : Sym → String → Nat → Bool → List Sym → Sym
  | self, _, _, _, [] => self
  | self, cpyName, cpyIdx, multi, child :: rest =>
    let self' :=
      if child.access_modifier ≠ .PUBLIC then self
      else
        match child.data.kind with
        | .module _ => (import_from self child).1
        | .defi _ _ _ =>
          Sym.node self.data (updateBucketAt self.children cpyName cpyIdx
            (fun cpy =>
              match add_child cpy.children (Sym.shallow_copy child) multi with
              | .ok cs => Sym.node cpy.data cs
              | .error _ => cpy))
        | _ => self
    importAlts self' cpyName cpyIdx multi rest
end

/-- A path from a symbol-table root down to a symbol: bucket name and index
within the bucket at each step.  Python code passes symbol objects with
parent pointers; the embedding addresses them by their position. -/
def SymPath := List (String × Nat)
deriving DecidableEq, Repr

/-- Resolve a path to the symbol it addresses. -/
def Sym.getAt : Sym → SymPath → Option Sym
  | s, [] => some s
  | s, (n, i) :: rest =>
    match (bucketOf s.children n).get? i with
    | some c => Sym.getAt c rest
    | none => none

/-- Resolve a path to a cursor (the symbol plus its ancestor chain,
nearest first). -/
def cursorAtAux : List Sym → Sym → SymPath → Option Cursor
  | ups, s, [] => some ⟨ups, s⟩
  | ups, s, (n, i) :: rest =>
    match (bucketOf s.children n).get? i with
    | some c => cursorAtAux (s :: ups) c rest
    | none => none

def Sym.cursorAt (s : Sym) (p : SymPath) : Option Cursor :=
  cursorAtAux [] s p

/-- Apply a transformation to the symbol addressed by a path,
leaving the rest of the tree unchanged. -/
def Sym.modifyAt : Sym → SymPath → (Sym → Sym) → Sym
  | s, [], f => f s
  | s, (n, i) :: rest, f =>
    Sym.node s.data (s.children.map (fun bucket =>
      if bucket.1 = n then
        (bucket.1, bucket.2.mapIdx (fun j c => if j = i then Sym.modifyAt c rest f else c))
      else bucket))

/-- Python exceptions that escape an operation (as opposed to diagnostics
recorded in an Object's error map). -/
inductive PyExn where
  | fileNotFound (p : Path)
  | attributeErrorNoCopyMethod
  | assertionError
  | addChildExn (e : AddChildErr)
  | valueError (msg : String)
deriving DecidableEq, Repr

/-- The diagnostics the compiler and linker record in Object.errors.
Each constructor stands for one exception class and message shape in the
sources; the payload carries the data interpolated into the message.  The
suggestion list computed by difflib.get_close_matches in
StexObject.find_similar_symbols (python stdlib) only decorates the
undefined-symbol message and is not modelled. -/
inductive Diag where
  | linkErrModuleNotUnique (module : String) (file : Path)
  | linkErrModuleNotDefined (module : String) (file : Path)
  | linkErrCannotImportPrivate (module : String)
  | linkErrCycle (module : String) (atFile : Path) (atRange : Range)
  | linkErrUndefinedSymbol (name : List String) (rt : ReferenceType)
  | linkErrNonUniqueSymbol (name : List String) (rt : ReferenceType)
  | linkErrWrongType (name : List String) (found : ReferenceType) (expected : ReferenceType)
  | linkWarnNoverb (name : List String)
  | linkWarnNoverbLang (name : List String) (lang : String)
  | compilerErr (msg : String)
  | compilerWarn (msg : String)
  | addChildDiag (e : AddChildErr)
  | deprecationWarn (msg : String)
  | warnDiag (msg : String)
  | exceptionDiag (e : PyExn)
deriving DecidableEq, Repr

/-- Object.errors: a Range-keyed dictionary of diagnostic lists, in
insertion order. -/
abbrev ErrorMap := List (Range × List Diag)

/-- Python obj.errors.setdefault(range, []).append(diag). -/
def ErrorMap.addError (m : ErrorMap) (r : Range) (d : Diag) : ErrorMap :=
  if (m.find? (fun p => p.1 = r)).isSome then
    m.map (fun p => if p.1 = r then (p.1, List.append p.2 [d]) else p)
  else List.append m [(r, [d])]

/-- The diagnostics recorded at a range (empty when the range is absent). -/
def ErrorMap.at (m : ErrorMap) (r : Range) : List Diag :=
  match m.find? (fun p => p.1 = r) with
  | some p => p.2
  | none => []

/-- compiler.py Dependency.  The Python field export is a Lean keyword and
is called isExport here. -/
structure Dependency where
  range : Range
  scope : SymPath
  module_name : String
  module_type_hint : ModuleType
  file_hint : Path
  isExport : Bool
deriving DecidableEq, Repr

/-- references.py Reference (constructed as Reference(range, scope, name,
reference_type) throughout compiler.py). -/
structure Reference where
  range : Range
  scope : SymPath
  name : List String
  reference_type : ReferenceType
deriving DecidableEq, Repr

/-- compiler.py StexObject: the per-file compilation artifact.
creation_time is the time.time() value at construction. -/
structure StexObject where
  file : Path
  symbol_table : Sym
  dependencies : List Dependency
  references : List Reference
  errors : ErrorMap
  creation_time : Nat
deriving DecidableEq

/-- Equality of Objects ignoring creation_time (the modulo used by the
idempotence and round-trip properties of the spec). -/
def StexObject.eqModuloCreationTime (a b : StexObject) : Prop :=
  a.file = b.file ∧ a.symbol_table = b.symbol_table ∧
  a.dependencies = b.dependencies ∧ a.references = b.references ∧ a.errors = b.errors

instance (a b : StexObject) : Decidable (a.eqModuloCreationTime b) := by
  unfold StexObject.eqModuloCreationTime; infer_instance

/-- Record one diagnostic on an Object (obj.errors.setdefault(range, []).append(diag)). -/
def StexObject.addError (obj : StexObject) (r : Range) (d : Diag) : StexObject :=
  { obj with errors := ErrorMap.addError obj.errors r d }

/-- linker.py Linker.link_dependency: resolve the dependency's module name
in the imported file's symbol table; more than one match or none records a
LinkError; a unique non-PUBLIC match records the cannot-import-private
LinkError; otherwise the module is imported into the dependency's scope
with import_from.  An exception raised by import_from's outer add_child is
not caught anywhere in link_dependency and propagates to the caller. -/
def link_dependency (obj : StexObject) (dependency : Dependency)
    (imported : StexObject) : Except PyExn StexObject :=
  let alts := (Cursor.mk [] imported.symbol_table).lookup [dependency.module_name]
  if alts.length > 1 then
    .ok (obj.addError dependency.range
      (.linkErrModuleNotUnique dependency.module_name imported.file))
  else
    match alts with
    | [] =>
      .ok (obj.addError dependency.range
        (.linkErrModuleNotDefined dependency.module_name imported.file))
    | module :: _ =>
      if module.access_modifier ≠ .PUBLIC then
        .ok (obj.addError dependency.range
          (.linkErrCannotImportPrivate dependency.module_name))
      else
        match (Sym.getAt obj.symbol_table dependency.scope).map
            (fun scope => import_from scope module) with
        | some (_, some e) => .error (.addChildExn e)
        | some (scope', none) =>
          .ok { obj with symbol_table :=
                  obj.symbol_table.modifyAt dependency.scope (fun _ => scope') }
        | none => .ok obj

/-- linker.py line 160: the condition isinstance(symbol, DefType).  DefType
is the enum class from symbols.py, not the DefSymbol class, and a Symbol
instance is never an instance of an enum, so the condition is False for
every resolved symbol and the whole DefSymbol validation branch
(wrong-type LinkError, noverb LinkWarning, noverbs-language LinkWarning,
linker.py lines 161-176) is unreachable. -/
def isinstanceDefTypeEnum (_ : Sym) : Bool := false

/-- Validation of one resolved symbol of one reference (the body of the
inner loop of linker.py Linker.validate_linked_object, lines 159-184). -/
def validateRefSymbol (linked : StexObject) (ref : Reference) (symbol : Sym) :
    StexObject :=
  if isinstanceDefTypeEnum symbol then
    -- The DefSymbol branch of the source (lines 161-176) is unreachable:
    -- see isinstanceDefTypeEnum.
    linked
  else
    match symbol.data.kind with
    | .module mt =>
      if mt = .MODSIG ∧ ¬ ReferenceType.MODSIG.memOf ref.reference_type then
        linked.addError ref.range
          (.linkErrWrongType ref.name symbol.reference_type ref.reference_type)
      else if mt = .MODULE ∧ ¬ ReferenceType.MODULE.memOf ref.reference_type then
        linked.addError ref.range
          (.linkErrWrongType ref.name symbol.reference_type ref.reference_type)
      else linked
    | _ => linked

/-- Validation of one reference (the body of the outer loop of linker.py
Linker.validate_linked_object).  The except-ValueError arm of the source is
unreachable here because lookup in this embedding is total.  References
whose scope path does not resolve cannot arise from the sources (scopes are
live symbol objects) and are skipped. -/
def validateRef (linked : StexObject) (ref : Reference) : StexObject :=
  match Sym.cursorAt linked.symbol_table ref.scope with
  | none => linked
  | some cur =>
    let resolved := cur.lookup ref.name
    let linked :=
      if resolved.isEmpty then
        linked.addError ref.range
          (.linkErrUndefinedSymbol ref.name ref.reference_type)
      else linked
    resolved.foldl (fun acc symbol => validateRefSymbol acc ref symbol) linked

/-- linker.py Linker.validate_linked_object: validate every reference of
the linked object, accumulating diagnostics into its error map. -/
def validate_linked_object (linked : StexObject) : StexObject :=
  linked.references.foldl (fun acc ref => validateRef acc ref) linked

/-- The last component of a path (pathlib Path.name). -/
def Path.nameOf (p : Path) : String := p.getLastD ""

/-- The parent directory of a path (pathlib Path.parents with index 0). -/
def Path.parentDir (p : Path) : Path := p.dropLast

/-- The posix rendering of a path (pathlib Path.as_posix). -/
def Path.asPosix (p : Path) : String := String.intercalate "/" p

/-- Search the reversed components for the innermost one named source and
return everything from it outward. -/
def sourcePrefixRev : List String → Option (List String)
  | [] => none
  | c :: rest => if c = "source" then some (c :: rest) else sourcePrefixRev rest

/-- Modelled from the spec: find_source_dir lives in stexls/stex/util.py,
which is not in this source snapshot.  Per section 4.3.1 it walks the
ancestors of the current file to find a directory named source (the
innermost such ancestor); none of the ancestors being named source is an
error.  The current file itself is a .tex file and never matches. -/
def find_source_dir (_root : Path) (current_file : Path) : Except String Path :=
  match sourcePrefixRev current_file.reverse with
  | some revPrefix => .ok revPrefix.reverse
  | none => .error "source directory not found"

/-- The ambient facts the compiler reads from outside the sources: the
workspace root, the path canonicalisation performed by
expanduser().resolve().absolute() (a fixed function of the filesystem
state), and the repository/path/dir of a file used only for redundancy
warnings (stexls/stex/util.py helpers, also outside the snapshot). -/
structure CompilerEnv where
  root_dir : Path
  canon : Path → Path
  get_repository_name : Path → Path → String
  get_path : Path → Path → String
  get_dir : Path → Path → Path

/-- parser.py ImportModuleIntermediateParseTree.build_path_to_imported_module:
the static file-hint resolution for importmodule dependencies. -/
def build_path_to_imported_module (env : CompilerEnv) (root : Path)
    (current_file : Path) (mhrepo : Option String) (path : Option String)
    (dir : Option String) (load : Option String) (module : String) :
    Except String Path :=
  match load with
  | some l => .ok (env.canon (Path.child (Path.child root l) (module ++ ".tex")))
  | none =>
    if mhrepo.isNone ∧ path.isNone ∧ dir.isNone then
      .ok (env.canon current_file)
    else
      match (match mhrepo with
             | some r => .ok (Path.child (Path.child root r) "source")
             | none => find_source_dir root current_file : Except String Path) with
      | .error e => .error e
      | .ok source =>
        match dir with
        | some d => .ok (env.canon (Path.child (Path.child source d) (module ++ ".tex")))
        | none =>
          match path with
          | some p => .ok (env.canon (Path.child source (p ++ ".tex")))
          | none => .error "Invalid arguments: path or dir must be specified if mhrepo is."

/-- parser.py GImportIntermediateParseTree.build_path_to_imported_module:
the file-hint resolution for gimport dependencies. -/
def gimport_build_path_to_imported_module (env : CompilerEnv) (root : Path)
    (current_file : Path) (repo : Option String) (module : String) :
    Except String Path :=
  match (match repo with
         | some r => .ok (Path.child (Path.child root r) "source")
         | none => find_source_dir root current_file : Except String Path) with
  | .error e => .error e
  | .ok source => .ok (env.canon (Path.child source (module ++ ".tex")))

/-- Spec-side restatement of section 4.3.1 (file-hint resolution), written
from the specification's numbered rules for comparison with the source
function: 1. load set: R / load / (M + tex); 2. none of mhrepo, path, dir:
F; 3. source is R / mhrepo / source when mhrepo is given, else the ancestor
of F named source; 4. dir given: source / dir / (M + tex); 5. path given:
source / (path + tex); 6. otherwise an error; all results canonicalised. -/
def specFileHintResolution (env : CompilerEnv) (root : Path)
    (current_file : Path) (mhrepo : Option String) (path : Option String)
    (dir : Option String) (load : Option String) (module : String) :
    Except String Path :=
  match load with
  | some l => .ok (env.canon (Path.child (Path.child root l) (module ++ ".tex")))
  | none =>
    match mhrepo, path, dir with
    | none, none, none => .ok (env.canon current_file)
    | _, _, _ =>
      match (match mhrepo with
             | some r => .ok (Path.child (Path.child root r) "source")
             | none => find_source_dir root current_file : Except String Path) with
      | .error e => .error e
      | .ok source =>
        match dir with
        | some d => .ok (env.canon (Path.child (Path.child source d) (module ++ ".tex")))
        | none =>
          match path with
          | some p => .ok (env.canon (Path.child source (p ++ ".tex")))
          | none => .error "Invalid arguments: path or dir must be specified if mhrepo is."

/-- Modelled from the spec: vscode.py is outside this snapshot.  Splitting a
single-line range at a character offset, used by TokenWithLocation.split. -/
def Range.splitAt (r : Range) (idx : Nat) : Range × Range :=
  (⟨r.start, ⟨r.start.line, r.start.character + idx⟩⟩,
   ⟨⟨r.start.line, r.start.character + idx⟩, r.stop⟩)

def qmark : Char := Char.ofNat 63

def lbrace : Char := Char.ofNat 123

def rbrace : Char := Char.ofNat 125

/-- parser.py TrefiIntermediateParseTree.name: the target symbol name is
the part after the last question mark of the annotated target when one is
present, otherwise the dash-join of the tokens after the a-flag prefix,
stripped. -/
def trefiName (tokens : List Token) (target_note : Option Token) (a : Bool) : String :=
  match target_note with
  | some tok =>
    if tok.text.contains qmark then
      ((tok.text.splitOn "?").getLastD "").trim
    else
      (String.intercalate "-" ((tokens.drop (if a then 1 else 0)).map Token.text)).trim
  | none =>
    (String.intercalate "-" ((tokens.drop (if a then 1 else 0)).map Token.text)).trim

/-- parser.py TrefiIntermediateParseTree.module: the annotated module: the
non-empty part before the first question mark, the whole annotated token if
it holds no question mark, and nothing otherwise. -/
def trefiModule (target_note : Option Token) : Option Token :=
  match target_note with
  | some tok =>
    if tok.text.contains qmark then
      let idx := ((tok.text.splitOn "?").headD "").length
      let left : Token := ⟨(tok.text.splitOn "?").headD "", (tok.range.splitAt idx).1⟩
      if left.text ≠ "" then some left else none
    else some tok
  | none => none

/-- parser.py DefiIntermediateParseTree.name: the annotated name when
given, else the dash-join of the tokens (dropping the first when the a
flag is set). -/
def defiName (tokens : List Token) (name_note : Option Token) (a : Bool) : String :=
  match name_note with
  | some tok => tok.text
  | none => String.intercalate "-" ((tokens.drop (if a then 1 else 0)).map Token.text)

/-- parser.py _NoverbHandler.is_all: some unnamed optional argument reads
noverb. -/
def noverbIsAll (unnamed : List Token) : Bool :=
  unnamed.any (fun arg => arg.text = "noverb")

/-- parser.py _NoverbHandler.langs: the noverb languages of the named
noverb argument, braces stripped and comma-split.  Python collects them
into a set; the list keeps the written order. -/
def noverbLangs (named : List (String × Token)) : List String :=
  match named.find? (fun p => p.1 = "noverb") with
  | none => []
  | some (_, tok) =>
    if tok.text.front = lbrace ∧ tok.text.back = rbrace then
      ((tok.text.drop 1).dropRight 1).splitOn ","
    else [tok.text]

/-- The variant data of an intermediate parse tree node (parser.py
IntermediateParseTree subclasses, without the children that the base class
holds), restricted to the node kinds whose compile handlers are total: the
View, ViewSig and Tassign handlers of compiler.py (lines 369-377 and
538-620) read attributes (source_module, target_module, torepos, topath,
viewsig.module) that the parse-tree classes of parser.py do not define, so
compiling such a tree raises AttributeError and produces no Object; those
nodes are left out of the embedding.  The Python field export is called
isExport, and the annotation fields are called target_note and name_note
here.  Each node carries the range of its location (the location's path is
the compiled file). -/
inductive ITreeKind where
  | scope (range : Range) (scope_name : Token)
  | modsig (range : Range) (name : Token)
  | modnl (range : Range) (name : Token) (lang : Token) (mh_mode : Bool)
  | moduleT (range : Range) (id : Option Token)
  | trefi (range : Range) (tokens : List Token) (target_note : Option Token)
      (m : Bool) (a : Bool) (capital : Bool) (drefi : Bool) (i : Nat) (s : Bool)
      (asterisk : Bool)
  | defi (range : Range) (tokens : List Token) (name_note : Option Token)
      (m : Bool) (a : Bool) (capital : Bool) (i : Nat) (s : Bool)
      (asterisk : Bool)
  | symi (range : Range) (tokens : List Token) (unnamed_args : List Token)
      (named_args : List (String × Token)) (i : Nat) (asterisk : Bool)
  | symdef (range : Range) (name : Token) (unnamed_oargs : List Token)
      (named_oargs : List (String × Token)) (asterisk : Bool)
  | importmodule (range : Range) (module : Token) (mhrepos : Option Token)
      (repos : Option Token) (dir : Option Token) (load : Option Token)
      (path : Option Token) (isExport : Bool) (mh_mode : Bool) (asterisk : Bool)
  | gimport (range : Range) (module : Token) (repository : Option Token)
      (isExport : Bool) (asterisk : Bool)
  | gstructure (range : Range) (mhrepos : Option Token) (module : Token)
deriving DecidableEq

/-- An intermediate parse tree: variant data plus ordered children (the
base IntermediateParseTree holds location, children and parent; parents
are expressed by the ancestor lists passed through the traversal). -/
inductive ITree where
  | node (kind : ITreeKind) (children : List ITree)

def ITree.kind : ITree → ITreeKind
  | .node k _ => k

def ITree.childTrees : ITree → List ITree
  | .node _ cs => cs

/-- Modelled from the spec: IntermediateParseTree.find_parent_module_name
is called by compiler.py but not defined in the parser.py of this
snapshot.  Per sections 4.1 and 4.3 it names the nearest enclosing
module-forming node - a ModSig or ModNl (their name) or a Module (its id
when present).  The ancestor list is nearest first. -/
def find_parent_module_name : List ITreeKind → Option String
  | [] => none
  | t :: rest =>
    match t with
    | .modsig _ nm => some nm.text
    | .modnl _ nm _ _ => some nm.text
    | .moduleT _ id => id.map Token.text
    | _ => find_parent_module_name rest

/-- The kind of the nearest enclosing module-forming parse-tree node
(modelled from the spec like find_parent_module_name, for the isinstance
checks of the importmodule and gimport handlers). -/
inductive ParentModuleKind where
  | modsigKind
  | modnlKind
  | moduleKind
deriving DecidableEq, Repr

/-- Modelled from the spec:
IntermediateParseTree.find_parent_module_parse_tree, the node whose class
the importmodule and gimport handlers test with isinstance. -/
def find_parent_module_parse_tree : List ITreeKind → Option ParentModuleKind
  | [] => none
  | t :: rest =>
    match t with
    | .modsig _ _ => some .modsigKind
    | .modnl _ _ _ _ => some .modnlKind
    | .moduleT _ _ => some .moduleKind
    | _ => find_parent_module_parse_tree rest

/-- The class-level name-generation state of symbols.py:
ModuleSymbol.UNNAMED_MODULE_COUNT, ScopeSymbol.count, and the stream of
uuid4().hex draws a run of the process makes (uuids composed with
uuid_index). -/
structure GenState where
  unnamed_module_count : Nat
  scope_count : Nat
  uuids : Nat → String
  uuid_index : Nat

/-- symbols.py ModuleSymbol construction: a missing name draws the
module counter and makes the symbol PRIVATE. -/
def mkModuleSymbol (gen : GenState) (module_type : ModuleType) (locPath : Path)
    (locRange : Range) (name : Option String) : SymData × GenState :=
  match name with
  | some n =>
    ({ name := n, kind := .module module_type, access_modifier := .PUBLIC,
       locPath, locRange }, gen)
  | none =>
    ({ name := "__MODULESYMBOL#" ++ toString gen.unnamed_module_count ++ "__",
       kind := .module module_type, access_modifier := .PRIVATE, locPath, locRange },
     { gen with unnamed_module_count := gen.unnamed_module_count + 1 })

/-- symbols.py ScopeSymbol construction: the class counter is incremented
first, then a fresh uuid is drawn, and the symbol name decorates the given
name with both. -/
def mkScopeSymbol (gen : GenState) (locPath : Path) (locRange : Range)
    (name : String) : SymData × GenState :=
  let count := gen.scope_count + 1
  let uuid := gen.uuids gen.uuid_index
  ({ name := "__" ++ name ++ "#" ++ toString count ++ "@" ++ uuid ++ "__",
     kind := .scope, access_modifier := .PUBLIC, locPath, locRange },
   { gen with scope_count := count, uuid_index := gen.uuid_index + 1 })

/-- compiler.py Dependency.check_if_same_module_imported: same module name
and the same scope or a scope the first scope is an ancestor of (object
identity and Symbol.is_parent_of expressed on symbol paths). -/
def check_if_same_module_imported (d0 d : Dependency) : Bool :=
  d0.module_name = d.module_name ∧
    (d0.scope = d.scope ∨
      (d0.scope.length < d.scope.length ∧ d.scope.take d0.scope.length = d0.scope))

/-- compiler.py StexObject.add_dependency: a dependency importing the same
module into the same or an inner scope is skipped with a redundant-import
warning recorded at its range; otherwise it is appended. -/
def StexObject.add_dependency (obj : StexObject) (dep : Dependency) : StexObject :=
  match obj.dependencies.find? (fun dep0 => check_if_same_module_imported dep0 dep) with
  | some _ => obj.addError dep.range
      (.warnDiag ("Redundant import of module " ++ dep.module_name))
  | none => { obj with dependencies := List.append obj.dependencies [dep] }

/-- compiler.py StexObject.add_reference. -/
def StexObject.add_reference (obj : StexObject) (ref : Reference) : StexObject :=
  { obj with references := List.append obj.references [ref] }

/-- The no-arguments RootSymbol a fresh StexObject carries
(location at position 0,0 of the compiled file). -/
def rootSym (file : Path) : Sym :=
  Sym.node
    { name := "__root__", kind := .root, access_modifier := .PUBLIC,
      locPath := file, locRange := ⟨⟨0, 0⟩, ⟨0, 0⟩⟩ } []

/-- The chain of ancestor paths of a symbol path, the path itself first and
the root path last. -/
def ancestorPathsRev : SymPath → List SymPath
  | [] => [[]]
  | x :: q => (x :: q).reverse :: ancestorPathsRev q

def ancestorPaths (p : SymPath) : List SymPath := ancestorPathsRev p.reverse

/-- symbols.py Symbol.get_current_module on a symbol path: the nearest
enclosing ModuleSymbol, the symbol itself included. -/
def currentModulePath (root : Sym) (p : SymPath) : Option SymPath :=
  (ancestorPaths p).find? (fun q =>
    match root.getAt q with
    | some s => match s.data.kind with | .module _ => true | _ => false
    | none => false)

/-- The access modifiers along a path, the addressed symbol first and the
root last (what Symbol.get_visible_access_modifier reads through the
parent pointers). -/
def accessChain (root : Sym) (p : SymPath) : List AccessModifier :=
  (ancestorPaths p).filterMap (fun q => (root.getAt q).map Sym.access_modifier)

/-- Symbol.get_visible_access_modifier of the symbol a path addresses. -/
def visibleAccessAt (root : Sym) (p : SymPath) : AccessModifier :=
  match accessChain root p with
  | [] => .PUBLIC
  | a :: ups => get_visible_access_modifier a ups

/-- The state threaded through Compiler.compile's tree traversal: the
object under construction, the context stack of symbol paths (top first;
the intermediate-tree component of each stack entry is realised
structurally by the traversal), and the symbols.py name-generation
state. -/
structure CompileState where
  obj : StexObject
  context : List SymPath
  gen : GenState

/-- Add a fresh symbol as a child of the symbol addressed by a path and
return its path (Symbol.add_child through the object graph; the addressed
parent always exists in states reachable from the sources). -/
def addSymbolAt (obj : StexObject) (p : SymPath) (d : SymData) (alternative : Bool) :
    StexObject × Except AddChildErr SymPath :=
  match obj.symbol_table.getAt p with
  | none => (obj, .error (.duplicateSymbolDefined d.name))
  | some target =>
    match add_child target.children (Sym.node d []) alternative with
    | .error e => (obj, .error e)
    | .ok cs' =>
      ({ obj with symbol_table := obj.symbol_table.modifyAt p (fun t => Sym.node t.data cs') },
       .ok (List.append p [(d.name, (bucketOf cs' d.name).length - 1)]))

/-- Is the symbol addressed by the context the RootSymbol (the isinstance
RootSymbol location checks of the modsig, modnl and module handlers)? -/
def contextIsRoot (obj : StexObject) (p : SymPath) : Bool :=
  match obj.symbol_table.getAt p with
  | some s =>
    match s.data.kind with
    | .root => true
    | _ => false
  | none => false

/-- compiler.py Compiler._compile_modsig: location check, filename check, a
Module(MODSIG, name) symbol under the context; a duplicate is only logged
and yields no new context.  The ModuleSymbol constructor is called with a
name, so the generation state is untouched (mkModuleSymbol with some
name). -/
def compile_modsig (obj : StexObject) (ctx : SymPath) (gen : GenState)
    (range : Range) (name : Token) : StexObject × GenState × Option SymPath :=
  let obj := if !(contextIsRoot obj ctx) then
      obj.addError range (.compilerErr "Invalid modsig location: Parent is not root")
    else obj
  let obj := if obj.file.nameOf ≠ name.text ++ ".tex" then
      obj.addError name.range
        (.compilerWarn ("Invalid modsig filename: Expected " ++ name.text ++ ".tex"))
    else obj
  let pair := mkModuleSymbol gen .MODSIG obj.file name.range (some name.text)
  match addSymbolAt obj ctx pair.1 false with
  | (obj, .ok p) => (obj, pair.2, some p)
  | (obj, .error _) => (obj, pair.2, none)

/-- compiler.py Compiler._compile_modnl: location check, filename check, a
Binding under the context; on success the binding becomes the context and a
Dependency on the sibling module file plus a Reference to the module are
recorded at the name's range. -/
def compile_modnl (obj : StexObject) (ctx : SymPath) (range : Range)
    (name : Token) (lang : Token) : StexObject × Option SymPath :=
  let obj := if !(contextIsRoot obj ctx) then
      obj.addError range (.compilerErr "Invalid modnl location: Parent is not root")
    else obj
  let obj := if obj.file.nameOf ≠ name.text ++ "." ++ lang.text ++ ".tex" then
      obj.addError range
        (.compilerWarn ("Invalid modnl filename: Expected " ++ name.text ++ "." ++ lang.text ++ ".tex"))
    else obj
  let d : SymData :=
    { name := name.text, kind := .binding lang, access_modifier := .PUBLIC,
      locPath := obj.file, locRange := range }
  match addSymbolAt obj ctx d false with
  | (obj, .error _) => (obj, none)
  | (obj, .ok bpath) =>
    let dep : Dependency :=
      { range := name.range, scope := bpath, module_name := name.text,
        module_type_hint := .MODSIG,
        file_hint := Path.child obj.file.parentDir (name.text ++ ".tex"),
        isExport := true }
    let obj := obj.add_dependency dep
    let obj := obj.add_reference
      { range := name.range, scope := bpath, name := [name.text],
        reference_type := .MODSIG }
    (obj, some bpath)

/-- compiler.py Compiler._compile_module: location check, a Module(MODULE)
symbol - named after the id when present, otherwise anonymous (counter
name, PRIVATE) - under the context; a duplicate is only logged. -/
def compile_module (obj : StexObject) (ctx : SymPath) (gen : GenState)
    (range : Range) (id : Option Token) : StexObject × GenState × Option SymPath :=
  let obj := if !(contextIsRoot obj ctx) then
      obj.addError range (.compilerErr "Invalid module location: Parent is not root")
    else obj
  let pair := match id with
    | some t => mkModuleSymbol gen .MODULE obj.file t.range (some t.text)
    | none => mkModuleSymbol gen .MODULE obj.file range none
  match addSymbolAt obj ctx pair.1 false with
  | (obj, .ok p) => (obj, pair.2, some p)
  | (obj, .error _) => (obj, pair.2, none)

/-- compiler.py Compiler._compile_trefi: a drefi inserts a Def(DREF)
alternative into the enclosing module (a missing module is a
CompilerWarning, a redefinition fault a diagnostic); an annotated module
yields a module reference and a qualified ANY_DEFINITION reference,
otherwise the parent module name qualifies the reference (Python inserts
the value None into the name list when there is no parent module; the
embedding writes the placeholder string None); an m flag is deprecated and
requires a question-mark target. -/
def compile_trefi (obj : StexObject) (ctx : SymPath) (ancestors : List ITreeKind)
    (range : Range) (tokens : List Token) (target_note : Option Token) (m : Bool)
    (a : Bool) (drefi : Bool) : StexObject × Option SymPath :=
  let name := trefiName tokens target_note a
  let obj :=
    if drefi then
      match currentModulePath obj.symbol_table ctx with
      | none => obj.addError range
          (.compilerWarn "Invalid drefi location: Parent module symbol not found.")
      | some mpath =>
        let d : SymData :=
          { name := name, kind := .defi .DREF false [],
            access_modifier := visibleAccessAt obj.symbol_table ctx,
            locPath := obj.file, locRange := range }
        match addSymbolAt obj mpath d true with
        | (obj, .ok _) => obj
        | (obj, .error e) => obj.addError range (.addChildDiag e)
    else obj
  let obj :=
    match trefiModule target_note with
    | some modTok =>
      let obj := obj.add_reference
        { range := modTok.range, scope := ctx, name := [modTok.text],
          reference_type := ReferenceType.MODSIG.union ReferenceType.MODULE }
      obj.add_reference
        { range := range, scope := ctx, name := [modTok.text, name],
          reference_type := .ANY_DEFINITION }
    | none =>
      let module_name := (find_parent_module_name ancestors).getD "None"
      obj.add_reference
        { range := range, scope := ctx, name := [module_name, name],
          reference_type := .ANY_DEFINITION }
  let obj :=
    if m then
      let obj := obj.addError range (.deprecationWarn "mtref environments are deprecated.")
      let has_q := match target_note with
        | some t => t.text.contains qmark
        | none => false
      if !has_q then
        obj.addError range (.compilerErr "Invalid mtref environment: Target symbol must be clarified by using ?symbol syntax.")
      else obj
    else obj
  (obj, none)

/-- compiler.py Compiler._compile_defi: inside a module insert a Def(DEF)
symbol (a duplicate is recorded as a diagnostic); without an enclosing
module symbol, a missing parent module name is an error, otherwise an
ANY_DEFINITION reference to the parent module's name is recorded. -/
def compile_defi (obj : StexObject) (ctx : SymPath) (ancestors : List ITreeKind)
    (range : Range) (tokens : List Token) (name_note : Option Token) (a : Bool) :
    StexObject × Option SymPath :=
  let name := defiName tokens name_note a
  match currentModulePath obj.symbol_table ctx with
  | some mpath =>
    let d : SymData :=
      { name := name, kind := .defi .DEF false [],
        access_modifier := visibleAccessAt obj.symbol_table ctx,
        locPath := obj.file, locRange := range }
    match addSymbolAt obj mpath d false with
    | (obj, .ok _) => (obj, none)
    | (obj, .error e) => (obj.addError range (.addChildDiag e), none)
  | none =>
    match find_parent_module_name ancestors with
    | none =>
      (obj.addError range
        (.compilerErr ("Invalid defi: " ++ name ++ " does not have a module.")), none)
    | some parentName =>
      (obj.add_reference
        { range := range, scope := ctx, name := [parentName, name],
          reference_type := .ANY_DEFINITION }, none)

/-- compiler.py Compiler._compile_sym: requires an enclosing module; insert
a Def(SYM) symbol with the noverb annotations (a duplicate is recorded as a
diagnostic). -/
def compile_sym (obj : StexObject) (ctx : SymPath) (range : Range)
    (tokens : List Token) (unnamed_args : List Token)
    (named_args : List (String × Token)) : StexObject × Option SymPath :=
  let name := String.intercalate "-" (tokens.map Token.text)
  match currentModulePath obj.symbol_table ctx with
  | none =>
    (obj.addError range
      (.compilerErr ("Invalid location: " ++ name ++ " does not have a module.")), none)
  | some mpath =>
    let d : SymData :=
      { name := name, kind := .defi .SYM (noverbIsAll unnamed_args) (noverbLangs named_args),
        access_modifier := visibleAccessAt obj.symbol_table ctx,
        locPath := obj.file, locRange := range }
    match addSymbolAt obj mpath d false with
    | (obj, .ok _) => (obj, none)
    | (obj, .error e) => (obj.addError range (.addChildDiag e), none)

/-- compiler.py Compiler._compile_symdef: requires an enclosing module;
insert a Def(SYMDEF) symbol as an alternative (a redefinition fault is
recorded as a diagnostic). -/
def compile_symdef (obj : StexObject) (ctx : SymPath) (range : Range)
    (name : Token) (unnamed_oargs : List Token)
    (named_oargs : List (String × Token)) : StexObject × Option SymPath :=
  match currentModulePath obj.symbol_table ctx with
  | none =>
    (obj.addError range
      (.compilerErr ("Invalid location: " ++ name.text ++ " does not have a module.")), none)
  | some mpath =>
    let d : SymData :=
      { name := name.text,
        kind := .defi .SYMDEF (noverbIsAll unnamed_oargs) (noverbLangs named_oargs),
        access_modifier := visibleAccessAt obj.symbol_table ctx,
        locPath := obj.file, locRange := range }
    match addSymbolAt obj mpath d true with
    | (obj, .ok _) => (obj, none)
    | (obj, .error e) => (obj.addError range (.addChildDiag e), none)

/-- compiler.py Compiler._compile_importmodule: location check against the
enclosing module parse tree, a Dependency with the section 4.3.1 file hint
and a module Reference, plus deprecation and redundancy warnings.  A
failure of the file-hint resolution (parser.py raising out of
path_to_imported_file) escapes compile as an exception. -/
def compile_importmodule (env : CompilerEnv) (obj : StexObject) (ctx : SymPath)
    (ancestors : List ITreeKind) (range : Range) (module : Token)
    (mhrepos : Option Token) (repos : Option Token) (dir : Option Token)
    (load : Option Token) (path : Option Token) (isExport : Bool) :
    Except PyExn (StexObject × Option SymPath) :=
  let obj := if find_parent_module_parse_tree ancestors ≠ some .moduleKind then
      obj.addError range (.compilerErr "Invalid importmodule location: module environment not found.")
    else obj
  match build_path_to_imported_module env env.root_dir obj.file
      (mhrepos.map Token.text) (path.map Token.text) (dir.map Token.text)
      (load.map Token.text) module.text with
  | .error e => .error (.valueError e)
  | .ok file_hint =>
    let dep : Dependency :=
      { range := range, scope := ctx, module_name := module.text,
        module_type_hint := .MODULE, file_hint := file_hint, isExport := isExport }
    let obj := obj.add_dependency dep
    let obj := obj.add_reference
      { range := range, scope := ctx, name := [module.text], reference_type := .MODULE }
    let obj := match repos with
      | some r => obj.addError r.range
          (.deprecationWarn "Argument repos is deprecated and should be replaced with mhrepos.")
      | none => obj
    let obj := match mhrepos with
      | some t =>
        if t.text = env.get_repository_name env.root_dir obj.file then
          obj.addError t.range (.warnDiag ("Redundant mhrepos key: " ++ t.text))
        else obj
      | none => obj
    let obj := match path with
      | some t =>
        if t.text = env.get_path env.root_dir obj.file then
          obj.addError t.range (.warnDiag ("Redundant path key: " ++ t.text))
        else obj
      | none => obj
    let obj := match dir with
      | some t =>
        if t.text = (env.get_dir env.root_dir obj.file).asPosix then
          obj.addError range (.warnDiag ("Targeted dir " ++ t.text ++ " is the current dir."))
        else obj
      | none => obj
    .ok (obj, none)

/-- compiler.py Compiler._compile_gimport: location check against the
enclosing module or modsig parse tree, an exported Dependency with the
gimport file hint and a MODSIG reference, plus a redundant-repository
warning.  The dependency's module name is the unstripped token text while
the file hint strips it (parser.py path_to_imported_file). -/
def compile_gimport (env : CompilerEnv) (obj : StexObject) (ctx : SymPath)
    (ancestors : List ITreeKind) (range : Range) (module : Token)
    (repository : Option Token) : Except PyExn (StexObject × Option SymPath) :=
  let obj := match find_parent_module_parse_tree ancestors with
    | some .moduleKind => obj
    | some .modsigKind => obj
    | _ => obj.addError range
        (.compilerErr "Invalid gimport location: module or modsig environment not found.")
  match gimport_build_path_to_imported_module env env.root_dir obj.file
      (repository.map (fun t => t.text.trim)) module.text.trim with
  | .error e => .error (.valueError e)
  | .ok file_hint =>
    let dep : Dependency :=
      { range := range, scope := ctx, module_name := module.text,
        module_type_hint := .MODSIG, file_hint := file_hint, isExport := true }
    let obj := obj.add_dependency dep
    let obj := obj.add_reference
      { range := dep.range, scope := ctx, name := [dep.module_name],
        reference_type := .MODSIG }
    let obj := match repository with
      | some t =>
        if t.text = env.get_repository_name env.root_dir obj.file then
          obj.addError t.range (.warnDiag ("Redundant repository specified: " ++ t.text))
        else obj
      | none => obj
    .ok (obj, none)

/-- compiler.py Compiler._compile_scope: a ScopeSymbol (decorated name from
the generation state) under the context, which becomes the new context.
The uncaught add_child cannot fail because generated scope names are fresh;
the error arm is unreachable and yields no context. -/
def compile_scope (obj : StexObject) (ctx : SymPath) (gen : GenState)
    (range : Range) (scope_name : Token) : StexObject × GenState × Option SymPath :=
  let pair := mkScopeSymbol gen obj.file range scope_name.text
  match addSymbolAt obj ctx pair.1 false with
  | (obj, .ok p) => (obj, pair.2, some p)
  | (obj, .error _) => (obj, pair.2, none)

/-- compiler.py Compiler._compile_enter: extract the current context from
the stack, dispatch on the node kind, and report the context symbol the
handler returned, if any (gstructure returns None, compiler.py lines
531-536). -/
def compile_enter (env : CompilerEnv) (ancestors : List ITreeKind) (k : ITreeKind)
    (st : CompileState) : Except PyExn (CompileState × Option SymPath) :=
  let ctx := st.context.headD []
  match k with
  | .scope range scope_name =>
    let r := compile_scope st.obj ctx st.gen range scope_name
    .ok ({ st with obj := r.1, gen := r.2.1 }, r.2.2)
  | .modsig range name =>
    let r := compile_modsig st.obj ctx st.gen range name
    .ok ({ st with obj := r.1, gen := r.2.1 }, r.2.2)
  | .modnl range name lang _ =>
    let r := compile_modnl st.obj ctx range name lang
    .ok ({ st with obj := r.1 }, r.2)
  | .moduleT range id =>
    let r := compile_module st.obj ctx st.gen range id
    .ok ({ st with obj := r.1, gen := r.2.1 }, r.2.2)
  | .trefi range tokens target_note m a _ drefi _ _ _ =>
    let r := compile_trefi st.obj ctx ancestors range tokens target_note m a drefi
    .ok ({ st with obj := r.1 }, r.2)
  | .defi range tokens name_note _ a _ _ _ _ =>
    let r := compile_defi st.obj ctx ancestors range tokens name_note a
    .ok ({ st with obj := r.1 }, r.2)
  | .symi range tokens unnamed_args named_args _ _ =>
    let r := compile_sym st.obj ctx range tokens unnamed_args named_args
    .ok ({ st with obj := r.1 }, r.2)
  | .symdef range name unnamed_oargs named_oargs _ =>
    let r := compile_symdef st.obj ctx range name unnamed_oargs named_oargs
    .ok ({ st with obj := r.1 }, r.2)
  | .importmodule range module mhrepos repos dir load path isExport _ _ =>
    match compile_importmodule env st.obj ctx ancestors range module mhrepos repos dir load path isExport with
    | .error e => .error e
    | .ok r => .ok ({ st with obj := r.1 }, r.2)
  | .gimport range module repository _ _ =>
    match compile_gimport env st.obj ctx ancestors range module repository with
    | .error e => .error e
    | .ok r => .ok ({ st with obj := r.1 }, r.2)
  | .gstructure _ _ _ => .ok (st, none)

mutual
/-- The traversal of Compiler.compile (root.traverse with _compile_enter
and _compile_exit): enter may push a context; children are walked; exit
pops exactly when this node pushed (in the source the pop fires when the
top context entry holds the exited tree, which by the balanced stack
discipline happens exactly for the node that pushed it). -/
def compileTree (env : CompilerEnv) (ancestors : List ITreeKind) :
    ITree → CompileState → Except PyExn CompileState
  | .node k cs, st =>
    match compile_enter env ancestors k st with
    | .error e => .error e
    | .ok (st1, pushed) =>
      let st1 := match pushed with
        | some p => { st1 with context := p :: st1.context }
        | none => st1
      match compileTrees env (k :: ancestors) cs st1 with
      | .error e => .error e
      | .ok st2 =>
        .ok (match pushed with
          | some _ => { st2 with context := st2.context.tail }
          | none => st2)

def compileTrees (env : CompilerEnv) (ancestors : List ITreeKind) :
    List ITree → CompileState → Except PyExn CompileState
  | [], st => .ok st
  | t :: ts, st =>
    match compileTree env ancestors t st with
    | .error e => .error e
    | .ok st' => compileTrees env ancestors ts st'
end

/-- Python object.errors[loc.range] = err for every entry of a parser
error map (assignment, not append). -/
def ErrorMap.setAt (m : ErrorMap) (r : Range) (ds : List Diag) : ErrorMap :=
  if (m.find? (fun p => p.1 = r)).isSome then
    m.map (fun p => if p.1 = r then (p.1, ds) else p)
  else List.append m [(r, ds)]

/-- compiler.py Compiler.compile lines 282-292: a fresh StexObject; the
parser's error map is copied into the object BEFORE parser.parse runs, at
which point IntermediateParser.__init__ has left it empty, so the copy is a
no-op; parse then produces the root trees and records its classification
faults and caught parser exceptions in parser.errors, which is never read
again; finally the roots are traversed with the per-node handlers.  The
parse outcome (roots plus the error map parse would populate) is the
input, parsing itself being the external latex parser's work.  Persistence
of the object file (lines 293-300) has no effect on the returned object
and is not modelled. -/
def compile (env : CompilerEnv) (file : Path) (creation_time : Nat)
    (roots : List ITree) (parseErrors : ErrorMap) (gen : GenState) :
    Except PyExn (StexObject × GenState) :=
  let object : StexObject :=
    { file := file, symbol_table := rootSym file, dependencies := [],
      references := [], errors := [], creation_time := creation_time }
  let parserErrorsBeforeParse : ErrorMap := []
  let object :=
    { object with errors :=
        parserErrorsBeforeParse.foldl (fun m p => m.setAt p.1 p.2) object.errors }
  let parserErrorsAfterParse := parseErrors
  let _ := parserErrorsAfterParse
  match compileTrees env [] roots { obj := object, context := [[]], gen := gen } with
  | .error e => .error e
  | .ok st => .ok (st.obj, st.gen)

mutual
/-- symbols.py Symbol.flat (the iterator behind iterating a symbol table):
bucket by bucket, each child followed by its own flattening. -/
def Sym.flatSyms : Sym → List Sym
  | .node _ bs => flatBuckets bs

def flatBuckets : List (String × List Sym) → List Sym
  | [] => []
  | (_, b) :: bs => List.append (flatList b) (flatBuckets bs)

def flatList : List Sym → List Sym
  | [] => []
  | c :: cs => c :: List.append (Sym.flatSyms c) (flatList cs)
end

/-- The linker cache (linker.py line 23):
Dict[usemodule_on_stack, Dict[str(file), Dict[module, (time, obj)]]],
flattened to an association list keyed by the triple. -/
abbrev LinkCache := List ((Bool × Path × String) × (Nat × StexObject))

/-- linker.py Linker._load_linked. -/
def load_linked (cache : LinkCache) (use : Bool) (file : Path) (module : String) :
    Option (Nat × StexObject) :=
  (cache.find? (fun e => e.1 = (use, file, module))).map (fun e => e.2)

/-- linker.py Linker._store_linked: replace or insert under the triple with
the current time. -/
def store_linked (cache : LinkCache) (use : Bool) (file : Path) (module : String)
    (now : Nat) (obj : StexObject) : LinkCache :=
  if (cache.find? (fun e => e.1 = (use, file, module))).isSome then
    cache.map (fun e => if e.1 = (use, file, module) then (e.1, (now, obj)) else e)
  else List.append cache [((use, file, module), (now, obj))]

/-- The collaborators the linker reads: the compiler (compile and its
objectfile-based recompilation check) and the filesystem and workspace
timestamps.  compileFn returning none is the FileNotFoundError compile
raises for a missing source file. -/
structure LinkerEnv where
  compileFn : Path → Option StexObject
  recompilation_required : Path → Bool
  mtime : Path → Nat
  is_file : Path → Bool
  live_modified : Path → Nat

/-- linker.py Linker._relink_required: true when the module is not cached,
when the cached entry is older than the source file's modification or
live-edit time, or when some path contributing a symbol location or a
dependency file hint is newer than the cache entry.  The except arm of the
source (returning true after logging) guards lstat on the collected paths,
which the is_file test already protects, so it is unreachable here. -/
def relink_required (env : LinkerEnv) (cache : LinkCache) (file : Path)
    (module_name : String) (usemodule_on_stack : Bool) : Bool :=
  match load_linked cache usemodule_on_stack file module_name with
  | none => true
  | some (mtime, obj) =>
    if mtime < env.mtime file ∨ mtime < env.live_modified file then true
    else
      let paths := List.append
        (obj.symbol_table.flatSyms.map (fun s => s.data.locPath))
        (obj.dependencies.map (fun d => d.file_hint))
      paths.any (fun p =>
        (env.is_file p ∧ mtime < env.mtime p) ∨ mtime < env.live_modified p)

/-- linker.py line 58: precompiled_objects[file].copy().  The StexObject
class of compiler.py (lines 94-188) defines no copy method and inherits
none, so this attribute access raises AttributeError. -/
def stexObjectCopy (_obj : StexObject) : Except PyExn StexObject :=
  .error .attributeErrorNoCopyMethod

/-- linker.py Linker.compile_and_link lines 52-58 (obtaining the per-file
Object): compile when the file is not in the precompiled dictionary or the
compiler's objectfile check requires it, caching the result in the
dictionary; otherwise take precompiled_objects[file].copy(). -/
def obtainObject (env : LinkerEnv) (precompiled : List (Path × StexObject))
    (file : Path) : Except PyExn (StexObject × List (Path × StexObject)) :=
  if (precompiled.find? (fun e => e.1 = file)).isNone ∨ env.recompilation_required file then
    match env.compileFn file with
    | some obj =>
      .ok (obj,
        if (precompiled.find? (fun e => e.1 = file)).isSome then
          precompiled.map (fun e => if e.1 = file then (e.1, obj) else e)
        else List.append precompiled [(file, obj)])
    | none => .error (.fileNotFound file)
  else
    match precompiled.find? (fun e => e.1 = file) with
    | some e =>
      match stexObjectCopy e.2 with
      | .ok o => .ok (o, precompiled)
      | .error ex => .error ex
    | none => .error .assertionError

/-- linker.py line 70: dep.module_name == _toplevel_module compares a str
with either None or the ModuleSymbol object that
dep.scope.get_current_module() returned, and Python equality between a str
and both is False, so the usemodule re-entry suppression never fires. -/
def toplevelEq (_module_name : String) (_toplevel : Option Sym) : Bool := false

/-- Cycle diagnostics recorded during recursion, addressed to the stack
frame (file hint, module name) whose original import opened the cycle,
carrying the file and range of the import site that closed it.  Python
mutates the ancestor's object directly through the stack; the embedding
carries the mutation up to that frame. -/
abbrev PendingCycle := List ((Path × String) × (Path × Range))

/-- Apply the pending cycle diagnostics addressed to one stack key to the
object that pushed it, at the range of the dependency it recursed for
(linker.py lines 77-81: the error lands in cyclic_obj.errors at
cyclic_dep.range and names cyclic_dep.module_name and the closing
location). -/
def applyPending (obj : StexObject) (key : Path × String) (range : Range)
    (pend : PendingCycle) : StexObject × PendingCycle :=
  ((pend.filter (fun e => e.1 = key)).foldl
      (fun o e => o.addError range (.linkErrCycle key.2 e.2.1 e.2.2)) obj,
   pend.filter (fun e => e.1 ≠ key))

/-- The mutable state threaded through a compile_and_link run: the shared
cache and a clock supplying the time() values store_linked records. -/
structure LinkState where
  cache : LinkCache
  clock : Nat

/-- The dependency loop of Linker.compile_and_link (lines 62-105), one
Dependency at a time, with the recursion abstracted as the recur argument:
filter by required symbol names (against the scope symbol's name); skip
non-exported dependencies when the stack is non-empty; skip the toplevel
module when a usemodule frame is on the stack (never fires, see
toplevelEq); record a cycle diagnostic addressed to the stack frame holding
(file hint, module name) and skip; otherwise recurse (or load the cached
link) and merge with link_dependency, catching exceptions of the recursion
at the dependency's range.  An exception out of link_dependency itself is
not caught and aborts the call. -/
def processDeps (env : LinkerEnv)
    (recur : Path → Option (List String) → List (Path × String) → Option Sym →
      Bool → LinkState → Option (Except PyExn StexObject × LinkState × PendingCycle))
    (file : Path) (required : Option (List String)) (stack : List (Path × String))
    (toplevel : Option Sym) (usemodule_on_stack : Bool) :
    List Dependency → StexObject → LinkState → PendingCycle →
    Option (Except PyExn StexObject × LinkState × PendingCycle)
  | [], obj, ls, pend => some (.ok obj, ls, pend)
  | dep :: rest, obj, ls, pend =>
    let scopeName := match obj.symbol_table.getAt dep.scope with
      | some s => s.name
      | none => ""
    if (match required with
        | some l => !l.isEmpty && !(l.contains scopeName)
        | none => false) then
      processDeps env recur file required stack toplevel usemodule_on_stack rest obj ls pend
    else if !dep.isExport && !stack.isEmpty then
      processDeps env recur file required stack toplevel usemodule_on_stack rest obj ls pend
    else if usemodule_on_stack && toplevelEq dep.module_name toplevel then
      processDeps env recur file required stack toplevel usemodule_on_stack rest obj ls pend
    else if stack.contains (dep.file_hint, dep.module_name) then
      let pend := List.append pend [((dep.file_hint, dep.module_name), (file, dep.range))]
      processDeps env recur file required stack toplevel usemodule_on_stack rest obj ls pend
    else
      let use' := usemodule_on_stack || !dep.isExport
      if relink_required env ls.cache dep.file_hint dep.module_name use' then
        let toplevel' := match toplevel with
          | some t => some t
          | none => (currentModulePath obj.symbol_table dep.scope).bind
              (fun q => obj.symbol_table.getAt q)
        match recur dep.file_hint (some [dep.module_name])
            (List.append stack [(dep.file_hint, dep.module_name)]) toplevel' use' ls with
        | none => none
        | some (.error e, ls', pend') =>
          let pair := applyPending obj (dep.file_hint, dep.module_name) dep.range
            (List.append pend pend')
          let obj := pair.1.addError dep.range (.exceptionDiag e)
          processDeps env recur file required stack toplevel usemodule_on_stack rest
            obj ls' pair.2
        | some (.ok imported, ls', pend') =>
          let ls' : LinkState :=
            { cache := store_linked ls'.cache use' dep.file_hint dep.module_name
                ls'.clock imported,
              clock := ls'.clock + 1 }
          let pair := applyPending obj (dep.file_hint, dep.module_name) dep.range
            (List.append pend pend')
          match link_dependency pair.1 dep imported with
          | .error e => some (.error e, ls', pair.2)
          | .ok obj' =>
            processDeps env recur file required stack toplevel usemodule_on_stack rest
              obj' ls' pair.2
      else
        match load_linked ls.cache use' dep.file_hint dep.module_name with
        | none => some (.error .assertionError, ls, pend)
        | some (_, imported) =>
          match link_dependency obj dep imported with
          | .error e => some (.error e, ls, pend)
          | .ok obj' =>
            processDeps env recur file required stack toplevel usemodule_on_stack rest
              obj' ls pend

/-- linker.py Linker.compile_and_link: obtain the per-file Object (see
obtainObject), walk its dependencies (see processDeps), validate the
linked object, and return it.  The recursion passes neither the
precompiled dictionary (each recursive call starts from an empty one, the
parameter defaulting to None) nor catches exceptions of obtainObject at
the top level.  The fuel argument only bounds the recursion depth for the
embedding; none is returned when it runs out, and enough fuel always
exists (the cycle check keeps stack keys distinct). -/
def compile_and_link (env : LinkerEnv) :
    Nat → Path → Option (List String) → List (Path × StexObject) →
    List (Path × String) → Option Sym → Bool → LinkState →
    Option (Except PyExn StexObject × LinkState × PendingCycle)
  | 0, _, _, _, _, _, _, _ => none
  | Nat.succ fuel, file, required, precompiled, stack, toplevel, use, ls =>
    match obtainObject env precompiled file with
    | .error e => some (.error e, ls, [])
    | .ok (obj, _precompiled') =>
      match processDeps env
          (fun f r s t u l => compile_and_link env fuel f r [] s t u l)
          file required stack toplevel use obj.dependencies obj ls [] with
      | none => none
      | some (.error e, ls', pend) => some (.error e, ls', pend)
      | some (.ok obj', ls', pend) =>
        some (.ok (validate_linked_object obj'), ls', pend)

/-- A latex environment as the external parser exposes it (section 6):
name, ordered required arguments, optional arguments (named key-value
pairs, the key already stripped of its trailing equals sign, or unnamed),
and a location. -/
structure Environment where
  env_name : String
  rargs : List Token
  oargs : List (Option String × Token)
  range : Range

/-- The unnamed optional arguments (the latex parser's unnamed_args). -/
def Environment.unnamed_args (e : Environment) : List Token :=
  e.oargs.filterMap (fun p => match p.1 with
    | none => some p.2
    | some _ => none)

/-- parser.py TokenWithLocation.parse_oargs: split the optional arguments
into the unnamed list and the named dictionary. -/
def parse_oargs (oargs : List (Option String × Token)) :
    List Token × List (String × Token) :=
  (oargs.filterMap (fun p => match p.1 with
     | none => some p.2
     | some _ => none),
   oargs.filterMap (fun p => match p.1 with
     | none => none
     | some n => some (n, p.2)))

/-- Modelled from the spec: stexls/util/roman_numerals.py is not in this
snapshot.  Standard roman-numeral decoding over the letters i, v, x
(values 1, 5, 10): scanning right to left, a value below the running
maximum is subtracted, otherwise added; the empty string does not decode.
The spec only fixes that the suffix i, ii, iii and so on decodes to the
arity and that an undecodable suffix raises. -/
def romanValue (c : Char) : Nat :=
  if c = 'i' then 1 else if c = 'v' then 5 else if c = 'x' then 10 else 0

def roman2int (s : String) : Option Nat :=
  if s.isEmpty then none
  else some ((s.toList.reverse.foldl (fun (acc : Nat × Nat) c =>
    let v := romanValue c
    if v < acc.2 then (acc.1 - v, acc.2) else (acc.1 + v, max acc.2 v))
    (0, 0)).1)

/-- Anchored match of the trefi environment-name pattern of parser.py line
496, groups ([ma] star)(d or D or t or T)ref([ivx] plus)(s opt)(star opt):
the leading character class, the alternative letters, the literal ref, the
numeral class and the two optional suffixes are pairwise disjoint at every
boundary, so the greedy left-to-right scan below returns exactly the
fullmatch groups.  Result: group 1 as a character list, group 2, group 3,
whether s matched, whether the asterisk matched. -/
def trefiMatch (s : String) : Option (List Char × Char × String × Bool × Bool) :=
  let sp := s.toList.span (fun c => c = 'm' ∨ c = 'a')
  match sp.2 with
  | c2 :: 'r' :: 'e' :: 'f' :: rest =>
    if c2 = 'd' ∨ c2 = 'D' ∨ c2 = 't' ∨ c2 = 'T' then
      let sp3 := rest.span (fun c => c = 'i' ∨ c = 'v' ∨ c = 'x')
      if sp3.1.isEmpty then none
      else
        match sp3.2 with
        | [] => some (sp.1, c2, String.mk sp3.1, false, false)
        | ['s'] => some (sp.1, c2, String.mk sp3.1, true, false)
        | ['*'] => some (sp.1, c2, String.mk sp3.1, false, true)
        | ['s', '*'] => some (sp.1, c2, String.mk sp3.1, true, true)
        | _ => none
    else none
  | _ => none

/-- Anchored match of the defi environment-name pattern of parser.py line
436, groups ([ma] star)(d or D)ef([ivx] plus)(s opt)(star opt). -/
def defiMatch (s : String) : Option (List Char × Char × String × Bool × Bool) :=
  let sp := s.toList.span (fun c => c = 'm' ∨ c = 'a')
  match sp.2 with
  | c2 :: 'e' :: 'f' :: rest =>
    if c2 = 'd' ∨ c2 = 'D' then
      let sp3 := rest.span (fun c => c = 'i' ∨ c = 'v' ∨ c = 'x')
      if sp3.1.isEmpty then none
      else
        match sp3.2 with
        | [] => some (sp.1, c2, String.mk sp3.1, false, false)
        | ['s'] => some (sp.1, c2, String.mk sp3.1, true, false)
        | ['*'] => some (sp.1, c2, String.mk sp3.1, false, true)
        | ['s', '*'] => some (sp.1, c2, String.mk sp3.1, true, true)
        | _ => none
    else none
  | _ => none

/-- Anchored match of the symi environment-name pattern of parser.py line
612, groups sym([ivx] plus)(star opt). -/
def symiMatch (s : String) : Option (String × Bool) :=
  match s.toList with
  | 's' :: 'y' :: 'm' :: rest =>
    let sp := rest.span (fun c => c = 'i' ∨ c = 'v' ∨ c = 'x')
    if sp.1.isEmpty then none
    else
      match sp.2 with
      | [] => some (String.mk sp.1, false)
      | ['*'] => some (String.mk sp.1, true)
      | _ => none
  | _ => none

/-- parser.py TrefiIntermediateParseTree.from_environment together with the
checks its constructor runs (lines 495-582): a non-matching name is not a
trefi (ok none); an empty required-argument list, more than one unnamed
optional argument, or an undecodable numeral raise CompilerError in
from_environment; the constructor then raises CompilerError unless the
token count equals i plus the a flag.  An error means no node is
constructed. -/
def trefi_from_environment (e : Environment) : Except String (Option ITreeKind) :=
  match trefiMatch e.env_name with
  | none => .ok none
  | some (g1, g2, g3, g4, g5) =>
    if e.rargs.isEmpty then
      .error "Argument count mismatch (expected at least 1, found 0)."
    else if e.unnamed_args.length > 1 then
      .error "Too many unnamed oargs in trefi: Expected are at most 1"
    else
      match roman2int g3 with
      | none => .error ("Invalid environment (are the roman numerals correct?): " ++ e.env_name)
      | some i =>
        if i + (if g1.contains 'a' then 1 else 0) ≠ e.rargs.length then
          .error "Trefi argument count mismatch"
        else
          .ok (some (.trefi e.range e.rargs e.unnamed_args.head?
            (g1.contains 'm') (g1.contains 'a') (g2 = 'T') (g2 = 'd' ∨ g2 = 'D')
            i g4 g5))

/-- parser.py DefiIntermediateParseTree.from_environment together with its
constructor checks (lines 435-489). -/
def defi_from_environment (e : Environment) : Except String (Option ITreeKind) :=
  match defiMatch e.env_name with
  | none => .ok none
  | some (g1, g2, g3, g4, g5) =>
    if e.rargs.isEmpty then
      .error "Argument count mismatch (expected at least 1, found 0)."
    else
      match roman2int g3 with
      | none => .error ("Invalid environment (are the roman numerals correct?): " ++ e.env_name)
      | some i =>
        if i + (if g1.contains 'a' then 1 else 0) ≠ e.rargs.length then
          .error "Defi argument count mismatch"
        else
          let name_note :=
            ((parse_oargs e.oargs).2.find? (fun p => p.1 = "name")).map (fun p => p.2)
          .ok (some (.defi e.range e.rargs name_note
            (g1.contains 'm') (g1.contains 'a') (g2 = 'D') i g4 g5))

/-- parser.py SymiIntermediateParseTree.from_environment together with its
constructor checks (lines 611-652): the constructor raises CompilerError
unless the token count equals i exactly. -/
def symi_from_environment (e : Environment) : Except String (Option ITreeKind) :=
  match symiMatch e.env_name with
  | none => .ok none
  | some (g1, g2) =>
    if e.rargs.isEmpty then
      .error "Argument count mismatch (expected at least 1, found 0)."
    else
      match roman2int g1 with
      | none => .error ("Invalid environment (are the roman numerals correct?): " ++ e.env_name)
      | some i =>
        if i ≠ e.rargs.length then
          .error "Symi argument count mismatch"
        else
          .ok (some (.symi e.range e.rargs (parse_oargs e.oargs).1
            (parse_oargs e.oargs).2 i g2))

/-- The AND-reduction reading of the claim about
get_visible_access_modifier: fold the chain's access modifiers (symbol
first, root last) with bitwise and of the Flag values. -/
def andReduceChain (a : AccessModifier) (ups : List AccessModifier) : AccessModifier :=
  ups.foldl AccessModifier.flagAnd a

/-- The OR-reduction of the chain's access modifiers with bitwise or of
the Flag values (what the source computes, see the C7 theorems). -/
def orReduceChain (a : AccessModifier) (ups : List AccessModifier) : AccessModifier :=
  ups.foldl AccessModifier.flagOr a

/-- Does this node kind leave the name-generation state untouched?  Scope
environments and anonymous modules are the two constructors that read the
symbols.py class counters and draw uuids. -/
def ITreeKind.noGen : ITreeKind → Bool
  | .scope _ _ => false
  | .moduleT _ none => false
  | _ => true

mutual
/-- No node of the tree consumes the name-generation state. -/
def ITree.noGenNames : ITree → Bool
  | .node k cs => k.noGen && ITree.noGenNamesList cs

def ITree.noGenNamesList : List ITree → Bool
  | [] => true
  | t :: ts => ITree.noGenNames t && ITree.noGenNamesList ts
end

/-- A short single-line range on the given line, for concrete scenarios. -/
def rngAt (n : Nat) : Range := ⟨⟨n, 0⟩, ⟨n, 8⟩⟩

/-- A placeholder object for unreachable match arms of concrete scenarios. -/
def dummyObject : StexObject :=
  { file := [], symbol_table := rootSym [], dependencies := [], references := [],
    errors := [], creation_time := 0 }

/-- Concrete scenario for reference validation: a module M holding a
noverb Def symbol x, referenced with a reference of kind MODSIG. -/
def exC1sym : Sym :=
  .node { name := "x", kind := .defi .SYM true [], access_modifier := .PUBLIC,
          locPath := ["m.tex"], locRange := rngAt 2 } []

def exC1module : Sym :=
  .node { name := "M", kind := .module .MODULE, access_modifier := .PUBLIC,
          locPath := ["m.tex"], locRange := rngAt 1 } [("x", [exC1sym])]

def exC1ref : Reference :=
  { range := rngAt 3, scope := [], name := ["M", "x"], reference_type := .MODSIG }

def exC1obj : StexObject :=
  { file := ["m.tex"],
    symbol_table := Sym.node
      { name := "__root__", kind := .root, access_modifier := .PUBLIC,
        locPath := ["m.tex"], locRange := rngAt 0 } [("M", [exC1module])],
    dependencies := [], references := [exC1ref], errors := [], creation_time := 0 }

/-- Concrete scenario for the linker cache: a file whose object is cached
by the caller and whose objectfile is fresh (recompilation_required
false), with unchanged modification and live-edit times. -/
def exC2file : Path := ["use.tex"]

def exC2compiled : StexObject :=
  { file := exC2file, symbol_table := rootSym exC2file, dependencies := [],
    references := [], errors := [], creation_time := 1 }

def exC2cached : StexObject := { exC2compiled with creation_time := 0 }

def exC2env : LinkerEnv :=
  { compileFn := fun p => if p = exC2file then some exC2compiled else none,
    recompilation_required := fun _ => false,
    mtime := fun _ => 0, is_file := fun _ => false, live_modified := fun _ => 0 }

/-- Concrete cyclic workspace (scenario S3): a.tex holds modsig a importing
module b from b.tex, and b.tex holds modsig b importing module a from
a.tex. -/
def fileA : Path := ["a.tex"]

def fileB : Path := ["b.tex"]

def depA : Dependency :=
  { range := rngAt 1, scope := [("a", 0)], module_name := "b",
    module_type_hint := .MODSIG, file_hint := fileB, isExport := true }

def depB : Dependency :=
  { range := rngAt 2, scope := [("b", 0)], module_name := "a",
    module_type_hint := .MODSIG, file_hint := fileA, isExport := true }

def objA : StexObject :=
  { file := fileA,
    symbol_table := Sym.node
      { name := "__root__", kind := .root, access_modifier := .PUBLIC,
        locPath := fileA, locRange := rngAt 0 }
      [("a", [Sym.node { name := "a", kind := .module .MODSIG,
                         access_modifier := .PUBLIC, locPath := fileA,
                         locRange := rngAt 0 } []])],
    dependencies := [depA], references := [], errors := [], creation_time := 0 }

def objB : StexObject :=
  { file := fileB,
    symbol_table := Sym.node
      { name := "__root__", kind := .root, access_modifier := .PUBLIC,
        locPath := fileB, locRange := rngAt 0 }
      [("b", [Sym.node { name := "b", kind := .module .MODSIG,
                         access_modifier := .PUBLIC, locPath := fileB,
                         locRange := rngAt 0 } []])],
    dependencies := [depB], references := [], errors := [], creation_time := 0 }

def exC3env : LinkerEnv :=
  { compileFn := fun p => if p = fileA then some objA else
      if p = fileB then some objB else none,
    recompilation_required := fun _ => true,
    mtime := fun _ => 0, is_file := fun _ => false, live_modified := fun _ => 0 }

def exC3run :=
  compile_and_link exC3env 4 fileA none [] [] none false ⟨[], 0⟩

def exC3obj : StexObject :=
  match exC3run with
  | some (.ok o, _, _) => o
  | _ => dummyObject

def exC3cache : LinkCache :=
  match exC3run with
  | some (_, ls, _) => ls.cache
  | _ => []

/-- Concrete scenario for compile idempotence: a file holding one scope
environment (an omtext), compiled twice through the persistent
name-generation state. -/
def exC5file : Path := ["repo", "source", "m.tex"]

def exC5env : CompilerEnv :=
  { root_dir := [], canon := fun p => p, get_repository_name := fun _ _ => "",
    get_path := fun _ _ => "", get_dir := fun _ _ => [] }

def gen0 : GenState :=
  { unnamed_module_count := 0, scope_count := 0, uuids := fun _ => "deadbeef",
    uuid_index := 0 }

def exC5roots : List ITree :=
  [ITree.node (.scope (rngAt 0) ⟨"omtext", rngAt 0⟩) []]

def exC5run1 := compile exC5env exC5file 0 exC5roots [] gen0

def exC5o1 : StexObject :=
  match exC5run1 with
  | .ok p => p.1
  | .error _ => dummyObject

def exC5g1 : GenState :=
  match exC5run1 with
  | .ok p => p.2
  | .error _ => gen0

def exC5run2 := compile exC5env exC5file 0 exC5roots [] exC5g1

def exC5o2 : StexObject :=
  match exC5run2 with
  | .ok p => p.1
  | .error _ => dummyObject

instance {ε α : Type} [DecidableEq ε] [DecidableEq α] : DecidableEq (Except ε α) :=
  fun a b =>
    match a, b with
    | .ok x, .ok y => decidable_of_iff (x = y) (by simp)
    | .error e, .error f => decidable_of_iff (e = f) (by simp)
    | .ok _, .error _ => isFalse (fun h => Except.noConfusion h)
    | .error _, .ok _ => isFalse (fun h => Except.noConfusion h)

/-- Concrete symbols for the add_child scenarios: two same-named
ModuleSymbols and same-named DefSymbols of differing def_type and
noverb. -/
def c6module1 : Sym :=
  .node { name := "m", kind := .module .MODULE, access_modifier := .PUBLIC,
          locPath := [], locRange := rngAt 0 } []

def c6module2 : Sym :=
  .node { name := "m", kind := .module .MODULE, access_modifier := .PUBLIC,
          locPath := [], locRange := rngAt 1 } []

def c6defDEF : Sym :=
  .node { name := "x", kind := .defi .DEF false [], access_modifier := .PUBLIC,
          locPath := [], locRange := rngAt 0 } []

def c6defSYM : Sym :=
  .node { name := "x", kind := .defi .SYM false [], access_modifier := .PUBLIC,
          locPath := [], locRange := rngAt 1 } []

def c6defDEFnoverb : Sym :=
  .node { name := "x", kind := .defi .DEF true [], access_modifier := .PUBLIC,
          locPath := [], locRange := rngAt 2 } []

/-- Concrete environments for the arity scenarios: a trefii with one
required argument and a symii with one required argument. -/
def c9envTrefi : Environment :=
  { env_name := "trefii", rargs := [⟨"t1", rngAt 0⟩], oargs := [], range := rngAt 0 }

def c9envSymi : Environment :=
  { env_name := "symii", rargs := [⟨"t1", rngAt 0⟩], oargs := [], range := rngAt 0 }

/-- Concrete scenario for private blocking: the imported file defines a
single PRIVATE module privmod, and the dependent file imports it at its
root scope. -/
def c4privMod : Sym :=
  .node { name := "privmod", kind := .module .MODSIG, access_modifier := .PRIVATE,
          locPath := ["lib", "privmod.tex"], locRange := rngAt 0 } []

def c4imported : StexObject :=
  { file := ["lib", "privmod.tex"],
    symbol_table := Sym.node
      { name := "__root__", kind := .root, access_modifier := .PUBLIC,
        locPath := ["lib", "privmod.tex"], locRange := rngAt 0 }
      [("privmod", [c4privMod])],
    dependencies := [], references := [], errors := [], creation_time := 0 }

def c4dep : Dependency :=
  { range := rngAt 7, scope := [], module_name := "privmod",
    module_type_hint := .MODSIG, file_hint := ["lib", "privmod.tex"],
    isExport := true }

def c4obj : StexObject :=
  { file := ["use.tex"], symbol_table := rootSym ["use.tex"],
    dependencies := [c4dep], references := [], errors := [], creation_time := 0 }

/-- The Object with its creation time replaced (the part of the Object the
idempotence properties ignore). -/
def StexObject.withTime (o : StexObject) (c : Nat) : StexObject :=
  { o with creation_time := c }

/-- A parse tree without generated names: a single named modsig. -/
def c5simpleRoots : List ITree :=
  [ITree.node (.modsig (rngAt 0) ⟨"m", rngAt 0⟩) []]

/- ------------------------------------------------------------------ -/
/- Theorems.                                                          -/
/- ------------------------------------------------------------------ -/

theorem flagOr_comm (a b : AccessModifier) :
    AccessModifier.flagOr a b = AccessModifier.flagOr b a := by
  cases a <;> cases b <;> rfl

theorem flagOr_assoc (a b c : AccessModifier) :
    AccessModifier.flagOr (AccessModifier.flagOr a b) c =
      AccessModifier.flagOr a (AccessModifier.flagOr b c) := by
  cases a <;> cases b <;> cases c <;> rfl

theorem flagOr_private_left (b : AccessModifier) :
    AccessModifier.flagOr .PRIVATE b = .PRIVATE := by
  cases b <;> rfl

theorem flagOr_private_right (a : AccessModifier) :
    AccessModifier.flagOr a .PRIVATE = .PRIVATE := by
  cases a <;> rfl

theorem foldl_flagOr_pull (rest : List AccessModifier) :
    ∀ x y, List.foldl AccessModifier.flagOr (AccessModifier.flagOr x y) rest =
      AccessModifier.flagOr x (List.foldl AccessModifier.flagOr y rest) := by
  induction rest with
  | nil => intro x y; rfl
  | cons r rs ih =>
    intro x y
    simp only [List.foldl_cons]
    rw [flagOr_assoc, ih]

theorem gvam_eq_orReduce (ups : List AccessModifier) :
    ∀ a, get_visible_access_modifier a ups = orReduceChain a ups := by
  induction ups with
  | nil => intro a; rfl
  | cons p rest ih =>
    intro a
    by_cases ha : a = AccessModifier.PRIVATE
    · subst ha
      simp only [get_visible_access_modifier, if_pos rfl, orReduceChain, List.foldl_cons,
        flagOr_private_left]
      have : ∀ l, List.foldl AccessModifier.flagOr AccessModifier.PRIVATE l =
          AccessModifier.PRIVATE := by
        intro l
        induction l with
        | nil => rfl
        | cons x xs ihx => simp only [List.foldl_cons, flagOr_private_left]; exact ihx
      exact (this rest).symm
    · simp only [get_visible_access_modifier, if_neg ha, orReduceChain, List.foldl_cons]
      rw [ih p]
      rw [foldl_flagOr_pull rest a p]
      exact flagOr_comm _ a

theorem orReduce_private (ups : List AccessModifier) :
    ∀ a, AccessModifier.PRIVATE ∈ a :: ups → orReduceChain a ups = .PRIVATE := by
  induction ups with
  | nil =>
    intro a h
    simp only [List.mem_singleton] at h
    simp [orReduceChain, h]
  | cons p rest ih =>
    intro a h
    have step : orReduceChain a (p :: rest) = AccessModifier.flagOr a (orReduceChain p rest) := by
      simp only [orReduceChain, List.foldl_cons]
      exact foldl_flagOr_pull rest a p
    rcases List.mem_cons.mp h with ha | htail
    · rw [step, ← ha]
      exact flagOr_private_left _
    · have : orReduceChain p rest = .PRIVATE := ih p htail
      rw [step, this, flagOr_private_right]

/-- C7, counterexample to the claim as stated: on the chain of a PUBLIC
symbol under a PRIVATE root, get_visible_access_modifier returns PRIVATE
while the AND-reduction of the chain's access modifiers is PUBLIC, so the
function does not AND-reduce the chain. -/
theorem C7_counterexample_and_reduce :
    get_visible_access_modifier .PUBLIC [.PRIVATE] = .PRIVATE ∧
    andReduceChain .PUBLIC [.PRIVATE] = .PUBLIC ∧
    get_visible_access_modifier .PUBLIC [.PRIVATE] ≠ andReduceChain .PUBLIC [.PRIVATE] := by
  decide

/-- C7 (amended): get_visible_access_modifier OR-reduces (bitflag union,
the strongest modifier wins under the encoding PUBLIC 0, PROTECTED 1,
PRIVATE 3) the access modifiers of the chain from the symbol up to the
root, and a PRIVATE modifier anywhere on that chain makes the returned
effective visibility PRIVATE. -/
theorem C7_visible_access_modifier_or_reduces (a : AccessModifier)
    (ups : List AccessModifier) :
    get_visible_access_modifier a ups = orReduceChain a ups ∧
    (AccessModifier.PRIVATE ∈ a :: ups → get_visible_access_modifier a ups = .PRIVATE) := by
  refine ⟨gvam_eq_orReduce ups a, fun h => ?_⟩
  rw [gvam_eq_orReduce ups a]
  exact orReduce_private ups a h

/-- C7 witness: the amended claim at the concrete chain PUBLIC under
PROTECTED under PRIVATE. -/
theorem C7_witness :
    get_visible_access_modifier .PUBLIC [.PROTECTED, .PRIVATE] =
      orReduceChain .PUBLIC [.PROTECTED, .PRIVATE] ∧
    get_visible_access_modifier .PUBLIC [.PROTECTED, .PRIVATE] = .PRIVATE :=
  ⟨(C7_visible_access_modifier_or_reduces .PUBLIC [.PROTECTED, .PRIVATE]).1,
   (C7_visible_access_modifier_or_reduces .PUBLIC [.PROTECTED, .PRIVATE]).2 (by decide)⟩

/-- C8: the file-hint resolution of
ImportModuleIntermediateParseTree.build_path_to_imported_module equals,
input for input, the rule-by-rule spec-side definition of section 4.3.1
(load rule, plain-import rule, source-directory determination, dir rule,
path rule, error otherwise, all canonicalised); being a function of
exactly these inputs, the same inputs always yield the same path. -/
theorem C8_build_path_matches_spec (env : CompilerEnv) (root : Path)
    (current_file : Path) (mhrepo : Option String) (path : Option String)
    (dir : Option String) (load : Option String) (module : String) :
    build_path_to_imported_module env root current_file mhrepo path dir load module =
      specFileHintResolution env root current_file mhrepo path dir load module := by
  cases load <;> cases mhrepo <;> cases path <;> cases dir <;> rfl

/-- C10: Compiler.compile copies the IntermediateParser's error map before
parser.parse runs, when it is still empty, so the returned Object is the
same whatever classification faults or parser exceptions parse would
record: the compile result does not depend on the parse-time error map at
all (first conjunct), and the pre-parse copy is a no-op on any error
accumulator (second conjunct). -/
theorem C10_parse_errors_never_reach_object (env : CompilerEnv) (file : Path)
    (t : Nat) (roots : List ITree) (parseErrors : ErrorMap) (gen : GenState) :
    compile env file t roots parseErrors gen = compile env file t roots [] gen ∧
    ∀ E : ErrorMap, (([] : ErrorMap).foldl (fun m p => m.setAt p.1 p.2) E) = E :=
  ⟨rfl, fun _ => rfl⟩

/-- C1 (code bug), evaluated at the failing input: the reference of kind
MODSIG resolves to the Def symbol x (SYM, noverb true), the symbol's
reference kind is not contained in the reference's kind, and
validate_linked_object still records no diagnostic whatsoever - the
DefSymbol validation branch of linker.py line 160 tests
isinstance(symbol, DefType) against the enum class and is dead, so neither
the wrong-type LinkError nor the noverb LinkWarning the claim requires is
recorded. -/
theorem C1_resolved_def_symbol_gets_no_diagnostic :
    (Cursor.mk [] exC1obj.symbol_table).lookup exC1ref.name = [exC1sym] ∧
    exC1sym.data.kind = .defi .SYM true [] ∧
    exC1sym.reference_type.memOf exC1ref.reference_type = false ∧
    validate_linked_object exC1obj = exC1obj ∧
    ErrorMap.at (validate_linked_object exC1obj).errors exC1ref.range = [] := by
  decide

/-- C2 (code bug), evaluated at the failing input: with the object cached
by the caller and recompilation not required, compile_and_link's
object-obtaining step raises AttributeError because StexObject defines no
copy method (so the cached object is neither returned by reference nor
shallow-copied); and with the default empty precompiled dictionary of a
subsequent call the file is recompiled although nothing changed. -/
theorem C2_cached_object_is_never_returned :
    obtainObject exC2env [(exC2file, exC2cached)] exC2file =
      .error .attributeErrorNoCopyMethod ∧
    obtainObject exC2env [] exC2file =
      .ok (exC2compiled, [(exC2file, exC2compiled)]) := by
  decide

theorem add_child_check_false_eq (cd pd : SymData) :
    add_child_check cd pd false =
      if cd.reference_type = pd.reference_type
      then some (.duplicateSymbolDefined cd.name) else none := by
  by_cases h : cd.reference_type = pd.reference_type <;> simp [add_child_check, h]

theorem findSome_dup_eq (cd : SymData) (L : List Sym) :
    (L.findSome? (fun prev => add_child_check cd prev.data false)) =
      if L.any (fun prev => cd.reference_type = prev.data.reference_type)
      then some (.duplicateSymbolDefined cd.name) else none := by
  induction L with
  | nil => rfl
  | cons x xs ih =>
    rw [List.findSome?_cons, add_child_check_false_eq]
    by_cases h : cd.reference_type = x.data.reference_type
    · rw [if_pos h]
      have hcond : (x :: xs).any
          (fun prev => cd.reference_type = prev.data.reference_type) = true := by
        rw [List.any_cons]
        simp [h]
      rw [if_pos hcond]
    · rw [if_neg h, ih]
      have hcond : (x :: xs).any
          (fun prev => cd.reference_type = prev.data.reference_type) =
          xs.any (fun prev => cd.reference_type = prev.data.reference_type) := by
        rw [List.any_cons]
        simp [h]
      simp only [hcond]

theorem findSome_none_of (L : List Sym) (f : Sym → Option AddChildErr)
    (h : ∀ x ∈ L, f x = none) : L.findSome? f = none := by
  induction L with
  | nil => rfl
  | cons x xs ih =>
    rw [List.findSome?_cons, h x (List.mem_cons_self x xs)]
    exact ih (fun y hy => h y (List.mem_cons_of_mem x hy))

theorem findSome_none_inv (L : List Sym) (f : Sym → Option AddChildErr)
    (h : L.findSome? f = none) : ∀ x ∈ L, f x = none := by
  induction L with
  | nil => intro x hx; cases hx
  | cons y ys ih =>
    rw [List.findSome?_cons] at h
    intro x hx
    rcases List.mem_cons.mp hx with rfl | hx'
    · cases hfy : f x with
      | none => rfl
      | some v => rw [hfy] at h; cases h
    · cases hfy : f y with
      | none =>
        rw [hfy] at h
        exact ih h x hx'
      | some v => rw [hfy] at h; cases h

theorem findSome_mem (L : List Sym) (f : Sym → Option AddChildErr) (e : AddChildErr)
    (h : L.findSome? f = some e) : ∃ x ∈ L, f x = some e := by
  induction L with
  | nil => cases h
  | cons y ys ih =>
    rw [List.findSome?_cons] at h
    cases hfy : f y with
    | none =>
      rw [hfy] at h
      rcases ih h with ⟨x, hx, hfx⟩
      exact ⟨x, List.mem_cons_of_mem y hx, hfx⟩
    | some v =>
      rw [hfy] at h
      cases h
      exact ⟨y, List.mem_cons_self y ys, hfy⟩

theorem refType_kind_eq (d : SymData) :
    d.reference_type = (match d.kind with
      | .root => ReferenceType.UNDEFINED
      | .scope => ReferenceType.UNDEFINED
      | .module .MODSIG => ReferenceType.MODSIG
      | .module .MODULE => ReferenceType.MODULE
      | .binding _ => ReferenceType.BINDING
      | .defi .DEF _ _ => ReferenceType.DEF
      | .defi .DREF _ _ => ReferenceType.DREF
      | .defi .SYM _ _ => ReferenceType.SYM
      | .defi .SYMDEF _ _ => ReferenceType.SYMDEF) := rfl

theorem ref_eq_defi_inv (pd cd : SymData) (dt : DefType) (nv : Bool)
    (nvs : List String) (hc : cd.kind = .defi dt nv nvs)
    (h : cd.reference_type = pd.reference_type) :
    ∃ nv' nvs', pd.kind = .defi dt nv' nvs' := by
  rw [refType_kind_eq cd, refType_kind_eq pd, hc] at h
  cases hp : pd.kind <;> rw [hp] at h
  case root => cases dt <;> simp_all [ReferenceType.UNDEFINED, ReferenceType.DEF,
    ReferenceType.DREF, ReferenceType.SYM, ReferenceType.SYMDEF]
  case module mt =>
    cases mt <;> cases dt <;> simp_all [ReferenceType.MODSIG, ReferenceType.MODULE,
      ReferenceType.DEF, ReferenceType.DREF, ReferenceType.SYM, ReferenceType.SYMDEF]
  case binding l =>
    cases dt <;> simp_all [ReferenceType.BINDING, ReferenceType.DEF,
      ReferenceType.DREF, ReferenceType.SYM, ReferenceType.SYMDEF]
  case scope => cases dt <;> simp_all [ReferenceType.UNDEFINED, ReferenceType.DEF,
    ReferenceType.DREF, ReferenceType.SYM, ReferenceType.SYMDEF]
  case defi dt' nv' nvs' =>
    cases dt <;> cases dt' <;>
      simp_all [ReferenceType.DEF, ReferenceType.DREF, ReferenceType.SYM,
        ReferenceType.SYMDEF]

theorem check_defi_eq (cd pd : SymData) (dt : DefType) (nv nv' : Bool)
    (nvs nvs' : List String) (hc : cd.kind = .defi dt nv nvs)
    (hp : pd.kind = .defi dt nv' nvs')
    (href : cd.reference_type = pd.reference_type) :
    add_child_check cd pd true =
      if nv' = nv ∧ nvs' = nvs then none
      else some (.invalidSymbolRedifinition cd.name) := by
  have hclass : cd.kind.pyClass = pd.kind.pyClass := by
    rw [hc, hp]
    rfl
  unfold add_child_check
  rw [if_neg (by simpa using href)]
  rw [if_neg (by decide : ¬ ((!true) = true))]
  rw [if_neg (by simp [hclass])]
  rw [hc, hp]
  show (if dt ≠ dt then some (AddChildErr.invalidSymbolRedifinition cd.name)
    else if nv ≠ nv' then some (AddChildErr.invalidSymbolRedifinition cd.name)
    else if nvs ≠ nvs' then some (AddChildErr.invalidSymbolRedifinition cd.name)
    else none) = _
  rw [if_neg (by simp : ¬ dt ≠ dt)]
  by_cases h1 : nv = nv'
  · rw [if_neg (by simp [h1] : ¬ nv ≠ nv')]
    by_cases h2 : nvs = nvs'
    · rw [if_neg (by simp [h2] : ¬ nvs ≠ nvs'), if_pos ⟨h1.symm, h2.symm⟩]
    · rw [if_pos (h2 : nvs ≠ nvs')]
      rw [if_neg (fun hh => h2 hh.2.symm)]
  · rw [if_pos (h1 : nv ≠ nv')]
    rw [if_neg (fun hh => h1 hh.1.symm)]

theorem check_nondefi_none (cd pd : SymData)
    (hclass : cd.kind.pyClass ≠ SymClass.defClass)
    (hsame : cd.reference_type = pd.reference_type →
      pd.kind.pyClass = cd.kind.pyClass) :
    add_child_check cd pd true = none := by
  unfold add_child_check
  by_cases href : cd.reference_type = pd.reference_type
  · rw [if_neg (by simpa using href)]
    rw [if_neg (by decide : ¬ ((!true) = true))]
    rw [if_neg (by simp [hsame href])]
    cases hk : cd.kind with
    | defi dt nv nvs => exact absurd (by rw [hk]; rfl) hclass
    | root => cases pd.kind <;> rfl
    | module mt => cases pd.kind <;> rfl
    | binding l => cases pd.kind <;> rfl
    | scope => cases pd.kind <;> rfl
  · rw [if_pos (by simpa using href)]

theorem check_refne_none (cd pd : SymData) (alt : Bool)
    (href : ¬ cd.reference_type = pd.reference_type) :
    add_child_check cd pd alt = none := by
  unfold add_child_check
  rw [if_pos (by simpa using href)]

/-- C6, counterexample to the claim as stated: add_child with
alternative true accepts a second ModuleSymbol of the same name (an
alternative that is not a Def symbol), and accepts a Def alternative that
disagrees with the previous same-named definition on def_type (DEF versus
SYM) without raising InvalidRedefinition - differing def_type means a
different reference type, which the loop skips. -/
theorem C6_counterexample_alternatives :
    add_child [("m", [c6module1])] c6module2 true =
      .ok (bucketAppend [("m", [c6module1])] c6module2) ∧
    add_child [("x", [c6defDEF])] c6defSYM true =
      .ok (bucketAppend [("x", [c6defDEF])] c6defSYM) := by
  decide

/-- C6 (amended): add_child(C, alternative=false) raises
DuplicateSymbolDefinedError exactly when the parent already holds a child
with C's name and the same reference type; add_child(C, alternative=true)
accepts alternatives for any symbol class, not only Def - it suffices that
the same-named previous children of C's reference type share C's Python
class; and for a Def symbol C it raises InvalidRedefinition exactly when a
previous same-named child of the same reference type (necessarily a Def of
the same def_type) disagrees on noverb or noverbs - a def_type
disagreement implies a different reference type and is accepted
silently. -/
theorem C6_add_child_characterization (children : List (String × List Sym))
    (child : Sym) :
    (∀ e, add_child children child false = .error e ↔
        (e = .duplicateSymbolDefined child.name ∧
         ∃ prev ∈ bucketOf children child.name,
           child.data.reference_type = prev.data.reference_type)) ∧
    (child.data.kind.pyClass ≠ SymClass.defClass →
      (∀ prev ∈ bucketOf children child.name,
          child.data.reference_type = prev.data.reference_type →
          prev.data.kind.pyClass = child.data.kind.pyClass) →
      add_child children child true = .ok (bucketAppend children child)) ∧
    (∀ dt nv nvs, child.data.kind = .defi dt nv nvs →
      (add_child children child true =
          .error (.invalidSymbolRedifinition child.name) ↔
        ∃ prev ∈ bucketOf children child.name,
          child.data.reference_type = prev.data.reference_type ∧
          ∃ nv' nvs', prev.data.kind = .defi dt nv' nvs' ∧
            (nv' ≠ nv ∨ nvs' ≠ nvs))) := by
  refine ⟨?_, ?_, ?_⟩
  · intro e
    unfold add_child
    rw [findSome_dup_eq]
    by_cases h : (bucketOf children child.name).any
        (fun prev => child.data.reference_type = prev.data.reference_type)
    · rw [if_pos h]
      simp only [Except.error.injEq]
      constructor
      · intro he
        refine ⟨he.symm, ?_⟩
        rcases List.any_eq_true.mp h with ⟨prev, hmem, href⟩
        exact ⟨prev, hmem, of_decide_eq_true href⟩
      · intro hpair
        exact hpair.1.symm
    · rw [if_neg h]
      constructor
      · intro hcontra; cases hcontra
      · intro hpair
        rcases hpair.2 with ⟨prev, hmem, href⟩
        exact absurd (List.any_eq_true.mpr ⟨prev, hmem, decide_eq_true href⟩) h
  · intro hclass hsame
    unfold add_child
    rw [findSome_none_of _ _ (fun x hx =>
      check_nondefi_none child.data x.data hclass (fun hr => hsame x hx hr))]
  · intro dt nv nvs hkind
    unfold add_child
    cases hfs : (bucketOf children child.name).findSome?
        (fun prev => add_child_check child.data prev.data true) with
    | none =>
      constructor
      · intro hcontra; cases hcontra
      · rintro ⟨prev, hmem, href, nv', nvs', hpk, hdis⟩
        have hnone := findSome_none_inv _ _ hfs prev hmem
        rw [check_defi_eq child.data prev.data dt nv nv' nvs nvs' hkind hpk href] at hnone
        have hnn : ¬ (nv' = nv ∧ nvs' = nvs) := by
          rintro ⟨h1, h2⟩
          rcases hdis with hd | hd
          · exact hd h1
          · exact hd h2
        rw [if_neg hnn] at hnone
        cases hnone
    | some e =>
      rcases findSome_mem _ _ _ hfs with ⟨x, hx, hfx⟩
      have href : child.data.reference_type = x.data.reference_type := by
        by_contra hne
        rw [check_refne_none child.data x.data true hne] at hfx
        cases hfx
      obtain ⟨nv', nvs', hxk⟩ :=
        ref_eq_defi_inv x.data child.data dt nv nvs hkind href
      rw [check_defi_eq child.data x.data dt nv nv' nvs nvs' hkind hxk href] at hfx
      by_cases hnn : nv' = nv ∧ nvs' = nvs
      · rw [if_pos hnn] at hfx; cases hfx
      · rw [if_neg hnn] at hfx
        have he : e = .invalidSymbolRedifinition child.name := by
          cases hfx; rfl
        subst he
        simp only [Except.error.injEq]
        constructor
        · intro _
          refine ⟨x, hx, href, nv', nvs', hxk, ?_⟩
          by_cases h1 : nv' = nv
          · right
            intro h2
            exact hnn ⟨h1, h2⟩
          · left; exact h1
        · intro _; trivial

/-- C6 witness: the amended claim applied to a parent holding a Def(DEF,
x, noverb false) and an alternative Def(DEF, x, noverb true): the
redefinition fault is raised because the noverb signatures disagree. -/
theorem C6_witness :
    add_child [("x", [c6defDEF])] c6defDEFnoverb true =
      .error (.invalidSymbolRedifinition "x") :=
  ((C6_add_child_characterization [("x", [c6defDEF])] c6defDEFnoverb).2.2
      .DEF true [] (by decide)).mpr
    ⟨c6defDEF, by decide, by decide, false, [], by decide, by decide⟩

/-- C9: for every environment matching the trefi (or defi) name pattern,
classification succeeds only when the required-argument count equals i
plus the a flag, where i is the arity decoded from the roman-numeral
group, and any count mismatch makes from_environment raise a
CompilerError so that no node is constructed; for a symi environment, the
token count must equal i exactly. -/
theorem C9_arity_validation :
    (∀ (e : Environment) (g1 : List Char) (g2 : Char) (g3 : String) (g4 g5 : Bool),
      trefiMatch e.env_name = some (g1, g2, g3, g4, g5) →
      ((∀ k i, trefi_from_environment e = .ok (some k) → roman2int g3 = some i →
          e.rargs.length = i + (if g1.contains 'a' then 1 else 0)) ∧
       (∀ i, roman2int g3 = some i →
          e.rargs.length ≠ i + (if g1.contains 'a' then 1 else 0) →
          ∃ msg, trefi_from_environment e = .error msg))) ∧
    (∀ (e : Environment) (g1 : List Char) (g2 : Char) (g3 : String) (g4 g5 : Bool),
      defiMatch e.env_name = some (g1, g2, g3, g4, g5) →
      ((∀ k i, defi_from_environment e = .ok (some k) → roman2int g3 = some i →
          e.rargs.length = i + (if g1.contains 'a' then 1 else 0)) ∧
       (∀ i, roman2int g3 = some i →
          e.rargs.length ≠ i + (if g1.contains 'a' then 1 else 0) →
          ∃ msg, defi_from_environment e = .error msg))) ∧
    (∀ (e : Environment) (g1 : String) (g2 : Bool),
      symiMatch e.env_name = some (g1, g2) →
      ((∀ k i, symi_from_environment e = .ok (some k) → roman2int g1 = some i →
          e.rargs.length = i) ∧
       (∀ i, roman2int g1 = some i → e.rargs.length ≠ i →
          ∃ msg, symi_from_environment e = .error msg))) := by
  refine ⟨?_, ?_, ?_⟩
  · intro e g1 g2 g3 g4 g5 hm
    constructor
    · intro k i hok hi
      unfold trefi_from_environment at hok
      rw [hm] at hok
      simp only [] at hok
      by_cases h1 : e.rargs.isEmpty
      · rw [if_pos h1] at hok; cases hok
      · rw [if_neg h1] at hok
        by_cases h2 : e.unnamed_args.length > 1
        · rw [if_pos h2] at hok; cases hok
        · rw [if_neg h2, hi] at hok
          simp only [] at hok
          by_cases h3 : i + (if g1.contains 'a' then 1 else 0) ≠ e.rargs.length
          · rw [if_pos h3] at hok; cases hok
          · exact (not_ne_iff.mp h3).symm
    · intro i hi hne
      unfold trefi_from_environment
      rw [hm]
      simp only []
      by_cases h1 : e.rargs.isEmpty
      · exact ⟨_, by rw [if_pos h1]⟩
      · by_cases h2 : e.unnamed_args.length > 1
        · exact ⟨_, by rw [if_neg h1, if_pos h2]⟩
        · refine ⟨"Trefi argument count mismatch", ?_⟩
          rw [if_neg h1, if_neg h2, hi]
          simp only []
          rw [if_pos (Ne.symm hne)]
  · intro e g1 g2 g3 g4 g5 hm
    constructor
    · intro k i hok hi
      unfold defi_from_environment at hok
      rw [hm] at hok
      simp only [] at hok
      by_cases h1 : e.rargs.isEmpty
      · rw [if_pos h1] at hok; cases hok
      · rw [if_neg h1, hi] at hok
        simp only [] at hok
        by_cases h3 : i + (if g1.contains 'a' then 1 else 0) ≠ e.rargs.length
        · rw [if_pos h3] at hok; cases hok
        · exact (not_ne_iff.mp h3).symm
    · intro i hi hne
      unfold defi_from_environment
      rw [hm]
      simp only []
      by_cases h1 : e.rargs.isEmpty
      · exact ⟨_, by rw [if_pos h1]⟩
      · refine ⟨"Defi argument count mismatch", ?_⟩
        rw [if_neg h1, hi]
        simp only []
        rw [if_pos (Ne.symm hne)]
  · intro e g1 g2 hm
    constructor
    · intro k i hok hi
      unfold symi_from_environment at hok
      rw [hm] at hok
      simp only [] at hok
      by_cases h1 : e.rargs.isEmpty
      · rw [if_pos h1] at hok; cases hok
      · rw [if_neg h1, hi] at hok
        simp only [] at hok
        by_cases h3 : i ≠ e.rargs.length
        · rw [if_pos h3] at hok; cases hok
        · exact (not_ne_iff.mp h3).symm
    · intro i hi hne
      unfold symi_from_environment
      rw [hm]
      simp only []
      by_cases h1 : e.rargs.isEmpty
      · exact ⟨_, by rw [if_pos h1]⟩
      · refine ⟨"Symi argument count mismatch", ?_⟩
        rw [if_neg h1, hi]
        simp only []
        rw [if_pos (Ne.symm hne)]

/-- C9 witness: a trefii with one token (arity two expected) and a symii
with one token both fail classification with a CompilerError. -/
theorem C9_witness :
    (∃ msg, trefi_from_environment c9envTrefi = .error msg) ∧
    (∃ msg, symi_from_environment c9envSymi = .error msg) :=
  ⟨(C9_arity_validation.1 c9envTrefi [] 't' "ii" false false (by decide)).2 2
      (by decide) (by decide),
   (C9_arity_validation.2.2 c9envSymi "ii" false (by decide)).2 2
      (by decide) (by decide)⟩

/-- Appending a diagnostic with setdefault-append grows the diagnostics at
exactly that range by exactly that diagnostic. -/
theorem ErrorMap_at_addError (m : ErrorMap) (r : Range) (d : Diag) :
    ErrorMap.at (ErrorMap.addError m r d) r = (ErrorMap.at m r) ++ [d] := by
  induction m with
  | nil => simp [ErrorMap.addError, ErrorMap.at]
  | cons p t ih =>
    by_cases hp : p.1 = r
    · have hfind : (p :: t).find? (fun q => q.1 = r) = some p :=
        List.find?_cons_of_pos _ (by simp [hp])
      unfold ErrorMap.addError
      rw [hfind]
      simp only [Option.isSome_some, if_true]
      unfold ErrorMap.at
      rw [List.map_cons, if_pos hp,
        List.find?_cons_of_pos _ (by simp [hp]), hfind]
      rfl
    · have hfind : (p :: t).find? (fun q => q.1 = r) = t.find? (fun q => q.1 = r) :=
        List.find?_cons_of_neg _ (by simp [hp])
      unfold ErrorMap.addError at ih ⊢
      unfold ErrorMap.at at ih ⊢
      rw [hfind]
      by_cases ht : ((t.find? fun q => q.1 = r).isSome) = true
      · rw [if_pos ht] at ih ⊢
        rw [List.map_cons, if_neg hp]
        rw [List.find?_cons_of_neg _ (by simp [hp])]
        rw [ih]
      · rw [if_neg ht] at ih ⊢
        show ErrorMap.at (p :: List.append t [(r, [d])]) r = _
        unfold ErrorMap.at
        rw [List.find?_cons_of_neg _ (by simp [hp])]
        exact ih

/-- C4: link_dependency blocks non-PUBLIC modules.  When the dependency's
module name resolves in the imported file's symbol table to exactly one
module M whose access modifier is not PUBLIC, link_dependency returns the
object with exactly one cannot-import-private LinkError appended at the
dependency's range and an unchanged symbol table (so no symbols are added
to the dependency's scope); and whenever link_dependency returns a
modified symbol table (an import happened), M's effective visibility
relative to the PUBLIC root of the imported table is not PRIVATE. -/
theorem C4_private_blocking
    (obj imported : StexObject) (dep : Dependency) (M : Sym)
    (hroot : imported.symbol_table.access_modifier = .PUBLIC)
    (hres : (Cursor.mk [] imported.symbol_table).lookup [dep.module_name] = [M]) :
    (M.access_modifier ≠ .PUBLIC →
      link_dependency obj dep imported =
        .ok (obj.addError dep.range (.linkErrCannotImportPrivate dep.module_name)) ∧
      (obj.addError dep.range
          (.linkErrCannotImportPrivate dep.module_name)).symbol_table
        = obj.symbol_table ∧
      ErrorMap.at (obj.addError dep.range
          (.linkErrCannotImportPrivate dep.module_name)).errors dep.range
        = (ErrorMap.at obj.errors dep.range)
          ++ [Diag.linkErrCannotImportPrivate dep.module_name]) ∧
    (∀ res, link_dependency obj dep imported = .ok res →
      res.symbol_table ≠ obj.symbol_table →
      get_visible_access_modifier M.access_modifier
        [imported.symbol_table.access_modifier] ≠ .PRIVATE) := by
  have hlen : ¬ (([M] : List Sym).length > 1) := by simp
  constructor
  · intro hM
    refine ⟨?_, rfl, ErrorMap_at_addError obj.errors dep.range _⟩
    simp only [link_dependency]
    rw [hres, if_neg hlen]
    simp only []
    rw [if_pos hM]
  · intro res hok hne
    by_cases hacc : M.access_modifier = .PUBLIC
    · rw [hacc, hroot]; decide
    · exfalso
      simp only [link_dependency] at hok
      rw [hres, if_neg hlen] at hok
      simp only [] at hok
      rw [if_pos hacc] at hok
      have h2 := (Except.ok.inj hok).symm
      exact hne (by rw [h2]; rfl)

/-- C4 witness: the PRIVATE module privmod is blocked, with the
cannot-import-private LinkError recorded on the dependent object. -/
theorem C4_witness :
    c4privMod.access_modifier ≠ AccessModifier.PUBLIC ∧
    link_dependency c4obj c4dep c4imported =
      .ok (c4obj.addError c4dep.range
        (.linkErrCannotImportPrivate c4dep.module_name)) ∧
    ErrorMap.at (c4obj.addError c4dep.range
        (.linkErrCannotImportPrivate c4dep.module_name)).errors c4dep.range
      = (ErrorMap.at c4obj.errors c4dep.range)
        ++ [Diag.linkErrCannotImportPrivate c4dep.module_name] :=
  have h := C4_private_blocking c4obj c4imported c4dep c4privMod
    (by decide) (by decide)
  ⟨by decide, (h.1 (by decide)).1, (h.1 (by decide)).2.2⟩

/-- Pointwise implication between Boolean predicates bounds the filtered
length. -/
theorem filter_length_le_of_imp {α : Type} (p q : α → Bool)
    (h : ∀ x, p x = true → q x = true) :
    ∀ l : List α, (l.filter p).length ≤ (l.filter q).length := by
  intro l
  induction l with
  | nil => simp
  | cons a t ih =>
    by_cases hp : p a = true
    · rw [List.filter_cons_of_pos hp, List.filter_cons_of_pos (h a hp)]
      simpa using ih
    · rw [List.filter_cons_of_neg (by simpa using hp)]
      by_cases hq : q a = true
      · rw [List.filter_cons_of_pos hq]
        exact Nat.le_succ_of_le ih
      · rw [List.filter_cons_of_neg (by simpa using hq)]
        exact ih

/-- The filtered length strictly drops when a member of the list passes q
but fails p. -/
theorem filter_length_lt_of_imp {α : Type} (p q : α → Bool)
    (h : ∀ x, p x = true → q x = true) (k : α) (hk : p k = false)
    (hqk : q k = true) :
    ∀ l : List α, k ∈ l → (l.filter p).length < (l.filter q).length := by
  intro l hl
  induction l with
  | nil => cases hl
  | cons a t ih =>
    rcases List.mem_cons.mp hl with h1 | h1
    · subst h1
      rw [List.filter_cons_of_neg (by simp [hk]), List.filter_cons_of_pos hqk]
      exact Nat.lt_succ_of_le (filter_length_le_of_imp p q h t)
    · by_cases hp : p a = true
      · rw [List.filter_cons_of_pos hp, List.filter_cons_of_pos (h a hp)]
        simpa using ih h1
      · rw [List.filter_cons_of_neg (by simpa using hp)]
        by_cases hq : q a = true
        · rw [List.filter_cons_of_pos hq]
          exact Nat.lt_succ_of_lt (ih h1)
        · rw [List.filter_cons_of_neg (by simpa using hq)]
          exact ih h1

/-- Pushing a fresh key onto the recursion stack strictly shrinks the set
of keys not yet on the stack. -/
theorem stack_push_filter_lt (P stack : List (Path × String)) (k : Path × String)
    (hkP : k ∈ P) (hks : stack.contains k = false) :
    (P.filter (fun x => !((List.append stack [k]).contains x))).length <
      (P.filter (fun x => !(stack.contains x))).length := by
  refine filter_length_lt_of_imp _ _ ?_ k ?_ ?_ P hkP
  · intro x hx
    simp only [Bool.not_eq_true', List.elem_eq_mem, decide_eq_false_iff_not] at hx ⊢
    intro hmem
    exact hx (by simp [hmem])
  · simp [List.elem_eq_mem]
  · simp [List.elem_eq_mem] at hks ⊢
    exact hks

/-- An Object successfully obtained by compile_and_link always came from
the compiler: the precompiled-dictionary branch raises before returning. -/
theorem obtainObject_ok (env : LinkerEnv) (pre : List (Path × StexObject))
    (file : Path) (obj : StexObject) (pre' : List (Path × StexObject))
    (h : obtainObject env pre file = .ok (obj, pre')) :
    env.compileFn file = some obj := by
  unfold obtainObject at h
  by_cases hc : ((pre.find? (fun e => e.1 = file)).isNone = true ∨
      env.recompilation_required file = true)
  · rw [if_pos hc] at h
    cases hcf : env.compileFn file with
    | some o =>
      rw [hcf] at h
      simp only [] at h
      have h1 := Except.ok.inj h
      injection h1 with h2 h3
      rw [h2]
    | none =>
      rw [hcf] at h
      exact Except.noConfusion h
  · rw [if_neg hc] at h
    cases hf : pre.find? (fun e => e.1 = file) with
    | some e =>
      rw [hf] at h
      simp only [stexObjectCopy] at h
      exact Except.noConfusion h
    | none =>
      rw [hf] at h
      exact Except.noConfusion h

/-- The dependency loop never gets stuck when every dependency key lies in
P and the recursion succeeds on every key of P not yet on the stack. -/
theorem processDeps_ne_none (env : LinkerEnv) (P : List (Path × String))
    (recur : Path → Option (List String) → List (Path × String) → Option Sym →
      Bool → LinkState → Option (Except PyExn StexObject × LinkState × PendingCycle))
    (file : Path) (required : Option (List String))
    (stack : List (Path × String)) (toplevel : Option Sym) (use : Bool)
    (hrec : ∀ k : Path × String, k ∈ P → stack.contains k = false →
      ∀ r t u l, recur k.1 r (List.append stack [k]) t u l ≠ none) :
    ∀ (deps : List Dependency) (obj : StexObject) (ls : LinkState)
      (pend : PendingCycle),
      (∀ d ∈ deps, (d.file_hint, d.module_name) ∈ P) →
      processDeps env recur file required stack toplevel use deps obj ls pend ≠
        none := by
  intro deps
  induction deps with
  | nil =>
    intro obj ls pend _ h
    simp [processDeps] at h
  | cons dep rest ih =>
    intro obj ls pend hdeps h
    have hP : ∀ d ∈ rest, (d.file_hint, d.module_name) ∈ P :=
      fun d hd => hdeps d (List.mem_cons_of_mem _ hd)
    simp only [processDeps] at h
    split at h
    · exact ih obj ls pend hP h
    · split at h
      · exact ih obj ls pend hP h
      · split at h
        · exact ih obj ls pend hP h
        · split at h
          · exact ih _ _ _ hP h
          · rename_i h4
            have h4' : stack.contains (dep.file_hint, dep.module_name) = false := by
              simpa using h4
            split at h
            · split at h
              · rename_i heq
                exact hrec (dep.file_hint, dep.module_name)
                  (hdeps dep (List.mem_cons_self _ _)) h4' _ _ _ _ heq
              · exact ih _ _ _ hP h
              · split at h
                · exact Option.noConfusion h
                · exact ih _ _ _ hP h
            · split at h
              · exact Option.noConfusion h
              · split at h
                · exact Option.noConfusion h
                · exact ih _ _ _ hP h

/-- compile_and_link returns a result whenever the fuel exceeds the number
of dependency keys not yet on the stack. -/
theorem cal_ne_none (env : LinkerEnv) (P : List (Path × String))
    (hP : ∀ f o, env.compileFn f = some o → ∀ d ∈ o.dependencies,
        (d.file_hint, d.module_name) ∈ P) :
    ∀ (fuel : Nat) (stack : List (Path × String)),
      (P.filter (fun k => !(stack.contains k))).length < fuel →
      ∀ (file : Path) (required : Option (List String))
        (precompiled : List (Path × StexObject)) (toplevel : Option Sym)
        (use : Bool) (ls : LinkState),
        compile_and_link env fuel file required precompiled stack toplevel use ls
          ≠ none := by
  intro fuel
  induction fuel with
  | zero => intro stack hlt; exact absurd hlt (Nat.not_lt_zero _)
  | succ fuel ih =>
    intro stack hlt file required precompiled toplevel use ls h
    simp only [compile_and_link] at h
    split at h
    · exact Option.noConfusion h
    · rename_i obj pre' heq
      split at h
      · rename_i heq2
        refine processDeps_ne_none env P
          (fun f r s t u l => compile_and_link env fuel f r [] s t u l)
          file required stack toplevel use ?_ obj.dependencies obj ls [] ?_ heq2
        · intro k hkP hks r t u l
          exact ih (List.append stack [k])
            (Nat.lt_of_lt_of_le (stack_push_filter_lt P stack k hkP hks)
              (Nat.lt_succ_iff.mp hlt)) k.1 r [] t u l
        · exact hP file obj (obtainObject_ok env precompiled file obj pre' heq)
      · exact Option.noConfusion h
      · exact Option.noConfusion h

/-- C3: on cyclic import graphs compile_and_link terminates (any fuel
beyond the number of dependency keys not yet on the stack yields a
result), a dependency whose (file hint, module name) key is already on the
recursion stack is skipped with a cycle diagnostic addressed to the stack
frame that pushed the key instead of recursing, and on the concrete
two-file cycle a.tex imports b.tex imports a.tex the run returns the
parent Object for a.tex carrying exactly one cyclic-import LinkError,
recorded at the range of the original import of b that opened the cycle,
while the Object linked for b is still produced and cached. -/
theorem C3_cycle_termination :
    (∀ (env : LinkerEnv) (P : List (Path × String)),
      (∀ f o, env.compileFn f = some o → ∀ d ∈ o.dependencies,
          (d.file_hint, d.module_name) ∈ P) →
      ∀ (fuel : Nat) (stack : List (Path × String)),
        (P.filter (fun k => !(stack.contains k))).length < fuel →
        ∀ (file : Path) (required : Option (List String))
          (precompiled : List (Path × StexObject)) (toplevel : Option Sym)
          (use : Bool) (ls : LinkState),
          compile_and_link env fuel file required precompiled stack toplevel use
            ls ≠ none) ∧
    (∀ (env : LinkerEnv)
        (recur : Path → Option (List String) → List (Path × String) →
          Option Sym → Bool → LinkState →
          Option (Except PyExn StexObject × LinkState × PendingCycle))
        (file : Path) (stack : List (Path × String)) (toplevel : Option Sym)
        (use : Bool) (dep : Dependency) (rest : List Dependency)
        (obj : StexObject) (ls : LinkState) (pend : PendingCycle),
      dep.isExport = true →
      stack.contains (dep.file_hint, dep.module_name) = true →
      processDeps env recur file none stack toplevel use (dep :: rest) obj ls
          pend =
        processDeps env recur file none stack toplevel use rest obj ls
          (List.append pend
            [((dep.file_hint, dep.module_name), (file, dep.range))])) ∧
    (exC3run.isSome = true ∧
     exC3obj.file = fileA ∧
     exC3obj.errors = [(depA.range, [Diag.linkErrCycle "b" fileA depA.range])] ∧
     (load_linked exC3cache false fileB "b").isSome = true) := by
  refine ⟨cal_ne_none, ?_, by decide⟩
  intro env recur file stack toplevel use dep rest obj ls pend hexp hstack
  have hmem : (dep.file_hint, dep.module_name) ∈ stack := by
    simpa [List.elem_eq_mem] using hstack
  simp [processDeps, hexp, hstack, toplevelEq]
  intro h5
  exact absurd hmem h5

/-- C3 witness: the termination bound instantiated on the concrete cyclic
two-file scenario, and the skip equation at its inner stack frame. -/
theorem C3_witness :
    compile_and_link exC3env 3 fileA none [] [] none false ⟨[], 0⟩ ≠ none ∧
    processDeps exC3env (fun _ _ _ _ _ _ => none) fileA none [(fileB, "b")]
        none false [depA] objA ⟨[], 0⟩ [] =
      processDeps exC3env (fun _ _ _ _ _ _ => none) fileA none [(fileB, "b")]
        none false [] objA ⟨[], 0⟩
        (List.append [] [((fileB, "b"), (fileA, depA.range))]) := by
  constructor
  · refine C3_cycle_termination.1 exC3env [(fileA, "a"), (fileB, "b")] ?_ 3 []
      (by decide) fileA none [] none false ⟨[], 0⟩
    intro f o h d hd
    have hc : exC3env.compileFn f =
        (if f = fileA then some objA else if f = fileB then some objB else none) :=
      rfl
    rw [hc] at h
    by_cases h1 : f = fileA
    · rw [if_pos h1] at h
      obtain rfl := Option.some.inj h
      have hd' : d = depA := List.mem_singleton.mp hd
      subst hd'
      decide
    · rw [if_neg h1] at h
      by_cases h2 : f = fileB
      · rw [if_pos h2] at h
        obtain rfl := Option.some.inj h
        have hd' : d = depB := List.mem_singleton.mp hd
        subst hd'
        decide
      · rw [if_neg h2] at h
        exact Option.noConfusion h
  · exact C3_cycle_termination.2.1 exC3env (fun _ _ _ _ _ _ => none) fileA
      [(fileB, "b")] none false depA [] objA ⟨[], 0⟩ [] (by decide) (by decide)

theorem withTime_file (o : StexObject) (c : Nat) : (o.withTime c).file = o.file :=
  rfl

theorem withTime_symbol_table (o : StexObject) (c : Nat) :
    (o.withTime c).symbol_table = o.symbol_table := rfl

theorem withTime_dependencies (o : StexObject) (c : Nat) :
    (o.withTime c).dependencies = o.dependencies := rfl

theorem withTime_references (o : StexObject) (c : Nat) :
    (o.withTime c).references = o.references := rfl

theorem withTime_errors (o : StexObject) (c : Nat) :
    (o.withTime c).errors = o.errors := rfl

/-- Recording a diagnostic commutes with replacing the creation time. -/
theorem addError_withTime (o : StexObject) (c : Nat) (r : Range) (d : Diag) :
    (o.withTime c).addError r d = (o.addError r d).withTime c := rfl

theorem add_reference_withTime (o : StexObject) (c : Nat) (ref : Reference) :
    (o.withTime c).add_reference ref = (o.add_reference ref).withTime c := rfl

theorem contextIsRoot_withTime (o : StexObject) (c : Nat) (p : SymPath) :
    contextIsRoot (o.withTime c) p = contextIsRoot o p := rfl

theorem addError_file (o : StexObject) (r : Range) (d : Diag) :
    (o.addError r d).file = o.file := rfl

theorem addError_symbol_table (o : StexObject) (r : Range) (d : Diag) :
    (o.addError r d).symbol_table = o.symbol_table := rfl

theorem add_reference_file (o : StexObject) (ref : Reference) :
    (o.add_reference ref).file = o.file := rfl

theorem add_reference_symbol_table (o : StexObject) (ref : Reference) :
    (o.add_reference ref).symbol_table = o.symbol_table := rfl

/-- Recording a dependency commutes with replacing the creation time. -/
theorem add_dependency_withTime (o : StexObject) (c : Nat) (dep : Dependency) :
    (o.withTime c).add_dependency dep = (o.add_dependency dep).withTime c := by
  unfold StexObject.add_dependency
  rw [withTime_dependencies]
  cases h : o.dependencies.find? (fun d0 => check_if_same_module_imported d0 dep)
    <;> rfl

/-- Adding a symbol commutes with replacing the creation time. -/
theorem addSymbolAt_withTime (o : StexObject) (c : Nat) (p : SymPath)
    (d : SymData) (alt : Bool) :
    addSymbolAt (o.withTime c) p d alt =
      ((addSymbolAt o p d alt).1.withTime c, (addSymbolAt o p d alt).2) := by
  unfold addSymbolAt
  rw [withTime_symbol_table]
  cases h : o.symbol_table.getAt p with
  | none => rfl
  | some target =>
    simp only []
    cases h2 : add_child target.children (Sym.node d []) alt <;> rfl

/-- The modsig handler commutes with replacing the creation time, leaves
the generation state untouched and is independent of it (the ModuleSymbol
is always named). -/
theorem compile_modsig_withTime (o : StexObject) (c : Nat) (ctx : SymPath)
    (g1 g2 : GenState) (range : Range) (name : Token) :
    compile_modsig (o.withTime c) ctx g1 range name =
      ((compile_modsig o ctx g2 range name).1.withTime c, g1,
       (compile_modsig o ctx g2 range name).2.2) := by
  unfold compile_modsig
  simp only [contextIsRoot_withTime, withTime_file, addError_withTime,
    addError_file, apply_ite StexObject.file, ite_self, mkModuleSymbol]
  split_ifs <;> (try simp only [addError_withTime])
  all_goals
    rw [addSymbolAt_withTime]
    symm
    split <;> rename_i heq <;> rw [heq] <;> rfl

/-- The modnl handler commutes with replacing the creation time. -/
theorem compile_modnl_withTime (o : StexObject) (c : Nat) (ctx : SymPath)
    (range : Range) (name lang : Token) :
    compile_modnl (o.withTime c) ctx range name lang =
      ((compile_modnl o ctx range name lang).1.withTime c,
       (compile_modnl o ctx range name lang).2) := by
  unfold compile_modnl
  simp only [contextIsRoot_withTime, withTime_file, addError_withTime,
    addError_file, apply_ite StexObject.file, ite_self]
  split_ifs <;> (try simp only [addError_withTime])
  all_goals
    rw [addSymbolAt_withTime]
    symm
    split <;> rename_i heq <;> rw [heq] <;>
      (try simp only [add_dependency_withTime, add_reference_withTime,
        withTime_file]) <;> rfl

/-- The module handler on a named module commutes with replacing the
creation time, leaves the generation state untouched and is independent of
it. -/
theorem compile_module_withTime (o : StexObject) (c : Nat) (ctx : SymPath)
    (g1 g2 : GenState) (range : Range) (t : Token) :
    compile_module (o.withTime c) ctx g1 range (some t) =
      ((compile_module o ctx g2 range (some t)).1.withTime c, g1,
       (compile_module o ctx g2 range (some t)).2.2) := by
  unfold compile_module
  simp only [contextIsRoot_withTime, withTime_file, addError_withTime,
    addError_file, apply_ite StexObject.file, ite_self, mkModuleSymbol]
  split_ifs <;> (try simp only [addError_withTime])
  all_goals
    rw [addSymbolAt_withTime]
    symm
    split <;> rename_i heq <;> rw [heq] <;> rfl

theorem add_dependency_file (o : StexObject) (dep : Dependency) :
    (o.add_dependency dep).file = o.file := by
  unfold StexObject.add_dependency
  cases h : o.dependencies.find? (fun d0 => check_if_same_module_imported d0 dep)
    <;> rfl

/-- The trefi handler commutes with replacing the creation time. -/
theorem compile_trefi_withTime (o : StexObject) (c : Nat) (ctx : SymPath)
    (anc : List ITreeKind) (range : Range) (tokens : List Token)
    (tn : Option Token) (m a drefi : Bool) :
    compile_trefi (o.withTime c) ctx anc range tokens tn m a drefi =
      ((compile_trefi o ctx anc range tokens tn m a drefi).1.withTime c,
       (compile_trefi o ctx anc range tokens tn m a drefi).2) := by
  unfold compile_trefi
  cases hcm : currentModulePath o.symbol_table ctx <;>
  cases htm : trefiModule tn <;>
    simp only [withTime_symbol_table, withTime_file, addError_withTime,
      add_reference_withTime, addError_file, add_reference_file, hcm, htm] <;>
    split_ifs <;>
      (try simp only [addError_withTime, add_reference_withTime, withTime_file]) <;>
      first
        | rfl
        | (rw [addSymbolAt_withTime]
           symm
           split <;> rename_i heq <;> rw [heq] <;>
             (try simp only [addError_withTime, add_reference_withTime,
               withTime_file]) <;>
             rfl)

/-- The defi handler commutes with replacing the creation time. -/
theorem compile_defi_withTime (o : StexObject) (c : Nat) (ctx : SymPath)
    (anc : List ITreeKind) (range : Range) (tokens : List Token)
    (nn : Option Token) (a : Bool) :
    compile_defi (o.withTime c) ctx anc range tokens nn a =
      ((compile_defi o ctx anc range tokens nn a).1.withTime c,
       (compile_defi o ctx anc range tokens nn a).2) := by
  unfold compile_defi
  cases hcm : currentModulePath o.symbol_table ctx <;>
  cases hfp : find_parent_module_name anc <;>
    simp only [withTime_symbol_table, withTime_file, addError_withTime,
      add_reference_withTime, addError_file, hcm, hfp] <;>
    first
      | rfl
      | (rw [addSymbolAt_withTime]
         symm
         split <;> rename_i heq <;> rw [heq] <;> rfl)

/-- The symi handler commutes with replacing the creation time. -/
theorem compile_sym_withTime (o : StexObject) (c : Nat) (ctx : SymPath)
    (range : Range) (tokens unnamed : List Token)
    (named : List (String × Token)) :
    compile_sym (o.withTime c) ctx range tokens unnamed named =
      ((compile_sym o ctx range tokens unnamed named).1.withTime c,
       (compile_sym o ctx range tokens unnamed named).2) := by
  unfold compile_sym
  cases hcm : currentModulePath o.symbol_table ctx <;>
    simp only [withTime_symbol_table, withTime_file, addError_withTime, hcm] <;>
    first
      | rfl
      | (rw [addSymbolAt_withTime]
         symm
         split <;> rename_i heq <;> rw [heq] <;> rfl)

/-- The symdef handler commutes with replacing the creation time. -/
theorem compile_symdef_withTime (o : StexObject) (c : Nat) (ctx : SymPath)
    (range : Range) (name : Token) (unnamed : List Token)
    (named : List (String × Token)) :
    compile_symdef (o.withTime c) ctx range name unnamed named =
      ((compile_symdef o ctx range name unnamed named).1.withTime c,
       (compile_symdef o ctx range name unnamed named).2) := by
  unfold compile_symdef
  cases hcm : currentModulePath o.symbol_table ctx <;>
    simp only [withTime_symbol_table, withTime_file, addError_withTime, hcm] <;>
    first
      | rfl
      | (rw [addSymbolAt_withTime]
         symm
         split <;> rename_i heq <;> rw [heq] <;> rfl)

/-- The importmodule handler commutes with replacing the creation time. -/
theorem compile_importmodule_withTime (env : CompilerEnv) (o : StexObject)
    (c : Nat) (ctx : SymPath) (anc : List ITreeKind) (range : Range)
    (module : Token) (mhrepos repos dir load path : Option Token)
    (isExport : Bool) :
    compile_importmodule env (o.withTime c) ctx anc range module mhrepos repos
        dir load path isExport =
      (compile_importmodule env o ctx anc range module mhrepos repos dir load
          path isExport).map (fun r => (r.1.withTime c, r.2)) := by
  unfold compile_importmodule
  simp only [withTime_file, addError_withTime, addError_file,
    apply_ite StexObject.file, ite_self]
  cases hbp : build_path_to_imported_module env env.root_dir o.file
      (mhrepos.map Token.text) (path.map Token.text) (dir.map Token.text)
      (load.map Token.text) module.text <;>
    simp only [hbp, Except.map] <;>
    (try rfl) <;>
    cases repos <;> cases mhrepos <;> cases path <;> cases dir <;>
      simp only [withTime_file, addError_withTime, addError_file,
        add_reference_withTime, add_reference_file, add_dependency_withTime,
        add_dependency_file, apply_ite StexObject.file, ite_self] <;>
      (try split_ifs) <;>
      (try simp only [withTime_file, addError_withTime, addError_file,
        add_reference_withTime, add_reference_file, add_dependency_withTime,
        add_dependency_file]) <;> rfl

/-- The gimport handler commutes with replacing the creation time. -/
theorem compile_gimport_withTime (env : CompilerEnv) (o : StexObject)
    (c : Nat) (ctx : SymPath) (anc : List ITreeKind) (range : Range)
    (module : Token) (repository : Option Token) :
    compile_gimport env (o.withTime c) ctx anc range module repository =
      (compile_gimport env o ctx anc range module repository).map
        (fun r => (r.1.withTime c, r.2)) := by
  unfold compile_gimport
  cases hfp : find_parent_module_parse_tree anc <;>
    (try rename_i pk; cases pk) <;>
    simp only [hfp, withTime_file, addError_withTime, addError_file] <;>
    cases hbp : gimport_build_path_to_imported_module env env.root_dir o.file
        (repository.map (fun t => t.text.trim)) module.text.trim <;>
      simp only [hbp, Except.map] <;>
      (try rfl) <;>
      cases repository <;>
        simp only [withTime_file, addError_withTime, addError_file,
          add_reference_withTime, add_reference_file, add_dependency_withTime,
          add_dependency_file] <;>
        (try split_ifs) <;>
        (try simp only [withTime_file, addError_withTime, addError_file,
          add_reference_withTime, add_reference_file, add_dependency_withTime,
          add_dependency_file]) <;> rfl

/-- One enter step commutes with replacing the creation time and is
independent of the generation state, for node kinds that draw no generated
names. -/
theorem compile_enter_withTime (env : CompilerEnv) (anc : List ITreeKind)
    (k : ITreeKind) (hk : k.noGen = true)
    (o : StexObject) (c : Nat) (ctx : List SymPath) (g1 g2 : GenState) :
    compile_enter env anc k { obj := o.withTime c, context := ctx, gen := g1 } =
      (compile_enter env anc k { obj := o, context := ctx, gen := g2 }).map
        (fun r => ({ obj := r.1.obj.withTime c, context := r.1.context,
                     gen := g1 }, r.2)) := by
  cases k with
  | scope range scope_name => simp [ITreeKind.noGen] at hk
  | modsig range name =>
    simp only [compile_enter]
    rw [compile_modsig_withTime o c (ctx.headD []) g1 g2 range name]
    rfl
  | modnl range name lang mh =>
    simp only [compile_enter]
    rw [compile_modnl_withTime o c (ctx.headD []) range name lang]
    rfl
  | moduleT range id =>
    cases id with
    | none => simp [ITreeKind.noGen] at hk
    | some t =>
      simp only [compile_enter]
      rw [compile_module_withTime o c (ctx.headD []) g1 g2 range t]
      rfl
  | trefi range tokens tn m a capital drefi i s ast =>
    simp only [compile_enter]
    rw [compile_trefi_withTime o c (ctx.headD []) anc range tokens tn m a drefi]
    rfl
  | defi range tokens nn m a capital i s ast =>
    simp only [compile_enter]
    rw [compile_defi_withTime o c (ctx.headD []) anc range tokens nn a]
    rfl
  | symi range tokens unnamed named i ast =>
    simp only [compile_enter]
    rw [compile_sym_withTime o c (ctx.headD []) range tokens unnamed named]
    rfl
  | symdef range name unnamed named ast =>
    simp only [compile_enter]
    rw [compile_symdef_withTime o c (ctx.headD []) range name unnamed named]
    rfl
  | importmodule range module mhrepos repos dir load path isExport mh ast =>
    simp only [compile_enter]
    rw [compile_importmodule_withTime env o c (ctx.headD []) anc range module
      mhrepos repos dir load path isExport]
    cases h : compile_importmodule env o (ctx.headD []) anc range module
        mhrepos repos dir load path isExport <;> rfl
  | gimport range module repository isExport ast =>
    simp only [compile_enter]
    rw [compile_gimport_withTime env o c (ctx.headD []) anc range module
      repository]
    cases h : compile_gimport env o (ctx.headD []) anc range module repository
      <;> rfl
  | gstructure range mhrepos module => rfl

mutual
/-- The tree traversal of compile commutes with replacing the creation
time and is independent of the generation state on trees that draw no
generated names. -/
theorem compileTree_withTime (env : CompilerEnv) (anc : List ITreeKind)
    (t : ITree) (h : ITree.noGenNames t = true) (o : StexObject) (c : Nat)
    (ctx : List SymPath) (g1 g2 : GenState) :
    compileTree env anc t { obj := o.withTime c, context := ctx, gen := g1 } =
      (compileTree env anc t { obj := o, context := ctx, gen := g2 }).map
        (fun st => { obj := st.obj.withTime c, context := st.context,
                     gen := g1 }) := by
  obtain ⟨k, cs⟩ := t
  have hk : k.noGen = true := by
    simp only [ITree.noGenNames, Bool.and_eq_true] at h
    exact h.1
  have hcs : ITree.noGenNamesList cs = true := by
    simp only [ITree.noGenNames, Bool.and_eq_true] at h
    exact h.2
  simp only [compileTree]
  rw [compile_enter_withTime env anc k hk o c ctx g1 g2]
  cases he : compile_enter env anc k { obj := o, context := ctx, gen := g2 } with
  | error e => rfl
  | ok r =>
    obtain ⟨st1, pushed⟩ := r
    simp only [Except.map]
    cases pushed with
    | none =>
      dsimp only
      rw [compileTrees_withTime env (k :: anc) cs hcs st1.obj c st1.context g1
        st1.gen]
      cases ht : compileTrees env (k :: anc) cs
          { obj := st1.obj, context := st1.context, gen := st1.gen } with
      | error e => rfl
      | ok st2 => rfl
    | some p =>
      dsimp only
      rw [compileTrees_withTime env (k :: anc) cs hcs st1.obj c
        (p :: st1.context) g1 st1.gen]
      cases ht : compileTrees env (k :: anc) cs
          { obj := st1.obj, context := p :: st1.context, gen := st1.gen } with
      | error e => rfl
      | ok st2 => rfl

theorem compileTrees_withTime (env : CompilerEnv) (anc : List ITreeKind)
    (ts : List ITree) (h : ITree.noGenNamesList ts = true) (o : StexObject)
    (c : Nat) (ctx : List SymPath) (g1 g2 : GenState) :
    compileTrees env anc ts { obj := o.withTime c, context := ctx, gen := g1 } =
      (compileTrees env anc ts { obj := o, context := ctx, gen := g2 }).map
        (fun st => { obj := st.obj.withTime c, context := st.context,
                     gen := g1 }) := by
  cases ts with
  | nil => rfl
  | cons t ts' =>
    have ht : ITree.noGenNames t = true := by
      simp only [ITree.noGenNamesList, Bool.and_eq_true] at h
      exact h.1
    have hts : ITree.noGenNamesList ts' = true := by
      simp only [ITree.noGenNamesList, Bool.and_eq_true] at h
      exact h.2
    simp only [compileTrees]
    rw [compileTree_withTime env anc t ht o c ctx g1 g2]
    cases he : compileTree env anc t { obj := o, context := ctx, gen := g2 } with
    | error e => rfl
    | ok st' =>
      dsimp only
      exact compileTrees_withTime env anc ts' hts st'.obj c st'.context g1
        st'.gen
end

/-- C5 counterexample: the same file content (one omtext scope
environment) compiled twice with the same creation time produces two
Objects that are NOT equal modulo creation_time - the generated scope
symbol names embed the class counter and a fresh uuid draw. -/
theorem C5_counterexample_generated_names :
    exC5o1.file = exC5file ∧ exC5o2.file = exC5file ∧
    exC5o1.creation_time = exC5o2.creation_time ∧
    ¬ exC5o1.eqModuloCreationTime exC5o2 := by decide

/-- C5 (corrected): compiling unchanged content twice is only idempotent
modulo creation_time on parse trees that draw no generated names: when the
roots contain no scope environment and no anonymous module, two compiles
with arbitrary creation times and name-generation states either fail with
the same exception or produce Objects equal modulo creation_time; the
omtext counterexample shows the restriction is necessary. -/
theorem C5_compile_idempotent_modulo_time (env : CompilerEnv) (file : Path)
    (t1 t2 : Nat) (roots : List ITree) (pe : ErrorMap) (g1 g2 : GenState)
    (h : ITree.noGenNamesList roots = true) :
    match compile env file t1 roots pe g1, compile env file t2 roots pe g2 with
    | .ok (o1, _), .ok (o2, _) => o1.eqModuloCreationTime o2
    | .error e1, .error e2 => e1 = e2
    | _, _ => False := by
  have key := compileTrees_withTime env [] roots h
    { file := file, symbol_table := rootSym file, dependencies := [],
      references := [], errors := [], creation_time := t2 } t1 [[]] g1 g2
  simp only [StexObject.withTime] at key
  simp only [compile, List.foldl_nil]
  rw [key]
  cases ht : compileTrees env [] roots
      { obj := { file := file, symbol_table := rootSym file,
                 dependencies := [], references := [], errors := [],
                 creation_time := t2 },
        context := [[]], gen := g2 } with
  | error e => rfl
  | ok st => exact ⟨rfl, rfl, rfl, rfl, rfl⟩

/-- C5 witness: a parse tree holding one named modsig, compiled with two
different creation times and two different generation states. -/
theorem C5_witness :
    ITree.noGenNamesList c5simpleRoots = true ∧
    (match compile exC5env exC5file 0 c5simpleRoots [] gen0,
           compile exC5env exC5file 5 c5simpleRoots [] exC5g1 with
     | .ok (o1, _), .ok (o2, _) => o1.eqModuloCreationTime o2
     | .error e1, .error e2 => e1 = e2
     | _, _ => False) :=
  ⟨by decide,
   C5_compile_idempotent_modulo_time exC5env exC5file 0 5 c5simpleRoots []
     gen0 exC5g1 (by decide)⟩

end Stexls
